import Mathlib

/-!
Shallow embedding of the router-state reconciliation engine of
`quantum/agent/l3_agent.py` (class `L3NATAgent`), for checking the
natural-language specification against the code.

Modelling conventions:
* Python dicts coming from the controller become structures; nullable string
  fields use `""` for Python `None`/empty (both are falsy in the code's
  truthiness tests, which only ever test truthiness on these fields).
* Side-effecting handler invocations (`internal_network_added`,
  `floating_ip_added`, ...) are recorded as values of an `Event` list; all
  lower-level control-plane and firewall calls (plug/unplug, address add,
  rule add/remove, apply) happen only inside these handlers, so an empty
  event list means no control-plane or firewall call at all.
* Python exceptions become an `Option Err` component of each result.  Since
  the Python code mutates `RouterInfo` objects in place, an erroring call
  still returns the state mutated so far, exactly as the live registry keeps
  those mutations when an exception propagates.
* `_set_subnet_info` annotates a port dict in place with an `ip_cidr` key
  derived purely from its first fixed IP and its subnet prefix length; the
  embedding computes that derived value (`ip_cidr_of`) where the annotation
  is read, and reproduces the exception on a port with no fixed IPs at the
  exact program points where `_set_subnet_info` is called.
-/

namespace L3Agent

/-- Internal/gateway port descriptor (`fixed_ips` flattened to the list of
ip addresses; the single subnet cidr of the port is `subnetCidr`). -/
structure Port where
  id : String
  networkId : String
  macAddress : String
  fixedIps : List String
  subnetCidr : String
  adminStateUp : Bool
deriving DecidableEq, Repr

/-- Floating-IP record; `fixedIpAddress` and `portId` are `""` when the
Python value is `None` (unassociated floating IP). -/
structure Fip where
  id : String
  floatingIpAddress : String
  fixedIpAddress : String
  portId : String
deriving DecidableEq, Repr

/-- Router descriptor received from the controller.  `egNetworkId` is
`(r['external_gateway_info'] or {}).get('network_id')`, with `""` for a
missing value; `interfaces` is `r[l3_constants.INTERFACE_KEY]` and
`floatingips` is `r[l3_constants.FLOATINGIP_KEY]`. -/
structure Router where
  id : String
  adminStateUp : Bool
  egNetworkId : String
  gwPort : Option Port
  interfaces : List Port
  floatingips : List Fip
deriving DecidableEq, Repr

/-- `RouterInfo`: the registry entry for one locally implemented router. -/
structure RouterInfo where
  routerId : String
  exGwPort : Option Port
  internalPorts : List Port
  floatingIps : List Fip
  router : Router
deriving DecidableEq, Repr

/-- One handler invocation on the control-plane/firewall boundary.  Payloads
are the arguments the Python handler receives that determine its firewall
and interface operations. -/
inductive Event where
  | routerAdded (routerId : String)
  | internalNetworkAdded (portId networkId ipCidr mac : String)
  | internalNetworkRemoved (portId ipCidr : String)
  | externalGatewayAdded (portId : String) (internalCidrs : List String)
  | externalGatewayRemoved (portId : String) (internalCidrs : List String)
  | floatingIpAdded (floatingIp fixedIp : String)
  | floatingIpRemoved (floatingIp fixedIp : String)
deriving DecidableEq, Repr

/-- Exceptions the modelled code can raise. -/
inductive Err where
  | noIpOnPort (portId : String)   -- `_set_subnet_info` on a port with no fixed ips
  | indexError                     -- `ex_gw_port['fixed_ips'][0]` on an empty list
  | noneTypeError                  -- subscripting a `None` gateway port
  | keyError (fipId : String)      -- `id_to_fip_map[fip['id']]` miss
  | configRequired                 -- "gateway_external_network_id must be configured"
  | remoteError                    -- re-raised RemoteError from the plugin
deriving DecidableEq, Repr

/-- Python `list.remove`: delete the first element equal to the argument. -/
def listRemove {α : Type} [DecidableEq α] : List α → α → List α
  | [], _ => []
  | x :: xs, a => if x = a then xs else x :: listRemove xs a

/-- Python dict assignment `m[k] = v`.  The code only ever reads
`id_to_fip_map` through key lookup (never iterating it), so an assoc list
with prepend-insert and first-match lookup is observationally identical to
the Python dict. -/
def mapInsert (m : List (String × Fip)) (k : String) (v : Fip) :
    List (String × Fip) :=
  (k, v) :: m

/-- Python dict lookup `m[k]` (as an `Option`; `none` is a `KeyError`). -/
def mapFind (m : List (String × Fip)) (k : String) : Option Fip :=
  (m.find? (fun p => p.1 == k)).map (fun p => p.2)

/-- The `ip_cidr` annotation `_set_subnet_info` stores on a port:
first fixed ip ++ "/" ++ prefix length of the port's subnet cidr. -/
def ip_cidr_of (p : Port) : String :=
  p.fixedIps.headD "" ++ "/" ++ (p.subnetCidr.splitOn "/").getLastD p.subnetCidr

/-- `True` unless the optional gateway port exists and has an empty
`fixed_ips` list (in which case `ex_gw_port['fixed_ips'][0]` raises). -/
def gwFixedOk : Option Port → Bool
  | some g => !g.fixedIps.isEmpty
  | none => true

/-- The loop over `new_ports` in `process_router` (l3_agent.py:282-287):
`_set_subnet_info(p)` (raises on a port with no fixed ips), append to
`ri.internal_ports`, then `internal_network_added` (which reads
`ex_gw_port['fixed_ips'][0]` when a gateway port is present). -/
def port_add_loop (ex_gw : Option Port) :
    List Port → List Port → List Event → List Port × List Event × Option Err
  | [], cur, evs => (cur, evs, none)
  | p :: rest, cur, evs =>
    if p.fixedIps.isEmpty then (cur, evs, some (.noIpOnPort p.id))
    else
      let cur' := cur ++ [p]
      let evs' := evs ++
        [.internalNetworkAdded p.id p.networkId (ip_cidr_of p) p.macAddress]
      if gwFixedOk ex_gw then port_add_loop ex_gw rest cur' evs'
      else (cur', evs', some .indexError)

/-- The loop over `old_ports` in `process_router` (l3_agent.py:289-292):
`ri.internal_ports.remove(p)` then `internal_network_removed` (which reads
`ex_gw_port['fixed_ips'][0]` when a gateway port is present). -/
def port_remove_loop (ex_gw : Option Port) :
    List Port → List Port → List Event → List Port × List Event × Option Err
  | [], cur, evs => (cur, evs, none)
  | p :: rest, cur, evs =>
    let cur' := listRemove cur p
    let evs' := evs ++ [.internalNetworkRemoved p.id (ip_cidr_of p)]
    if gwFixedOk ex_gw then port_remove_loop ex_gw rest cur' evs'
    else (cur', evs', some .indexError)

/-- First loop of `process_router_floating_ips` (l3_agent.py:315-324): for
each descriptor floating IP with an associated port, append and invoke
`floating_ip_added` when its id is new (subscripting a `None` gateway port
raises inside the handler, after the append), and record it in
`id_to_fip_map`. -/
def fip_add_loop (ex_gw_port : Option Port) (existing_ids : List String) :
    List Fip → List Fip → List (String × Fip) → List Event →
    (List Fip × List (String × Fip)) × List Event × Option Err
  | [], cur, m, evs => ((cur, m), evs, none)
  | fip :: rest, cur, m, evs =>
    if fip.portId ≠ "" then
      if fip.id ∈ existing_ids then
        fip_add_loop ex_gw_port existing_ids rest cur (mapInsert m fip.id fip) evs
      else
        match ex_gw_port with
        | none => ((cur ++ [fip], m), evs, some .noneTypeError)
        | some _ =>
          fip_add_loop ex_gw_port existing_ids rest (cur ++ [fip])
            (mapInsert m fip.id fip)
            (evs ++ [.floatingIpAdded fip.floatingIpAddress fip.fixedIpAddress])
    else fip_add_loop ex_gw_port existing_ids rest cur m evs

/-- Removing a member shortens the list by exactly one (used by the
termination argument of `fip_scan_loop`). -/
def listRemove_length {α : Type} [DecidableEq α] :
    ∀ {l : List α} {a : α}, a ∈ l → (listRemove l a).length + 1 = l.length := by
  intro l
  induction l with
  | nil => intro a h; cases h
  | cons x xs ih =>
    intro a h
    by_cases hx : x = a
    · simp [listRemove, hx]
    · have hm : a ∈ xs := by
        cases h with
        | head => exact absurd rfl hx
        | tail _ h => exact h
      simp [listRemove, hx, ih hm]

/-- Second loop of `process_router_floating_ips` (l3_agent.py:328-347).
The Python `for fip in ri.floating_ips` iterates by index over the list it
is mutating, so removing the current element shifts the remainder left and
the next original element is skipped; an appended element is visited when
the index reaches it.  The model iterates with an explicit index `i` over
the evolving list, exactly as CPython does. -/
def fip_scan_loop (ri_ex_gw : Option Port) (to_remove : List String)
    (m : List (String × Fip)) (i : Nat) (cur : List Fip) (evs : List Event) :
    List Fip × List Event × Option Err :=
  if h : i < cur.length then
    let fip := cur.get ⟨i, h⟩
    if fip.id ∈ to_remove then
      match ri_ex_gw with
      | none => (listRemove cur fip, evs, some .noneTypeError)
      | some _ =>
        fip_scan_loop ri_ex_gw to_remove m (i + 1) (listRemove cur fip)
          (evs ++ [.floatingIpRemoved fip.floatingIpAddress fip.fixedIpAddress])
    else
      match mapFind m fip.id with
      | none => (cur, evs, some (.keyError fip.id))
      | some new_fip =>
        if new_fip.fixedIpAddress ≠ "" ∧ fip.fixedIpAddress ≠ "" ∧
            new_fip.fixedIpAddress ≠ fip.fixedIpAddress then
          match ri_ex_gw with
          | none => (cur, evs, some .noneTypeError)
          | some _ =>
            fip_scan_loop ri_ex_gw to_remove m (i + 1)
              (listRemove cur fip ++ [new_fip])
              (evs ++
                [.floatingIpRemoved fip.floatingIpAddress fip.fixedIpAddress,
                 .floatingIpAdded fip.floatingIpAddress new_fip.fixedIpAddress])
        else fip_scan_loop ri_ex_gw to_remove m (i + 1) cur evs
  else (cur, evs, none)
termination_by cur.length - i
decreasing_by
  · have := listRemove_length (List.get_mem cur i h)
    omega
  · have := listRemove_length (List.get_mem cur i h)
    simp only [List.length_append, List.length_cons, List.length_nil]
    omega
  · omega

/-- `process_router_floating_ips` (l3_agent.py:308-347), with the pieces of
the mutable state it touches passed explicitly: the router's current
floating-IP list `ri_fips`, the old gateway baseline `ri.ex_gw_port`, the
descriptor's floating-IP list `router_fips`, and the new gateway port. -/
def process_router_floating_ips (ri_fips : List Fip) (ri_ex_gw : Option Port)
    (router_fips : List Fip) (ex_gw_port : Option Port) :
    List Fip × List Event × Option Err :=
  let existing_ids := ri_fips.map Fip.id
  let cur_ids := router_fips.map Fip.id
  match fip_add_loop ex_gw_port existing_ids router_fips ri_fips [] [] with
  | ((cur, _), evs, some e) => (cur, evs, some e)
  | ((cur, m), evs, none) =>
    let to_remove := existing_ids.filter (fun x => decide (x ∉ cur_ids))
    fip_scan_loop ri_ex_gw to_remove m 0 cur evs

/-- `current_port_ids` of `process_router` (l3_agent.py:274-275): ids of
the descriptor's internal ports with `admin_state_up` true. -/
def current_port_ids (ri : RouterInfo) : List String :=
  (ri.router.interfaces.filter Port.adminStateUp).map Port.id

/-- `new_ports` of `process_router` (l3_agent.py:276-278). -/
def new_ports (ri : RouterInfo) : List Port :=
  ri.router.interfaces.filter
    (fun p => decide (p.id ∈ current_port_ids ri ∧
                      p.id ∉ ri.internalPorts.map Port.id))

/-- `old_ports` of `process_router` (l3_agent.py:279-280). -/
def old_ports (ri : RouterInfo) : List Port :=
  ri.internalPorts.filter (fun p => decide (p.id ∉ current_port_ids ri))

/-- `process_router` (l3_agent.py:269-306).  Returns the mutated
`RouterInfo`, the handler invocations issued, and the exception (if any)
that aborted the remaining steps. -/
def process_router (ri : RouterInfo) : RouterInfo × List Event × Option Err :=
  let ex_gw_port := ri.router.gwPort
  match port_add_loop ex_gw_port (new_ports ri) ri.internalPorts [] with
  | (ports1, evs1, some e) => ({ ri with internalPorts := ports1 }, evs1, some e)
  | (ports1, evs1, none) =>
    match port_remove_loop ex_gw_port (old_ports ri) ports1 evs1 with
    | (ports2, evs2, some e) =>
      ({ ri with internalPorts := ports2 }, evs2, some e)
    | (ports2, evs2, none) =>
      let internal_cidrs := ports2.map ip_cidr_of
      let gw_step : List Event × Option Err :=
        match ex_gw_port, ri.exGwPort with
        | some g, none =>
          if g.fixedIps.isEmpty then ([], some (.noIpOnPort g.id))
          else ([.externalGatewayAdded g.id internal_cidrs], none)
        | none, some g0 =>
          ([.externalGatewayRemoved g0.id internal_cidrs],
           if g0.fixedIps.isEmpty then some .indexError else none)
        | _, _ => ([], none)
      match gw_step with
      | (gw_evs, some e) =>
        ({ ri with internalPorts := ports2 }, evs2 ++ gw_evs, some e)
      | (gw_evs, none) =>
        if ri.exGwPort.isSome || ex_gw_port.isSome then
          match process_router_floating_ips ri.floatingIps ri.exGwPort
              ri.router.floatingips ex_gw_port with
          | (fips, evs3, some e) =>
            ({ ri with internalPorts := ports2, floatingIps := fips },
             evs2 ++ gw_evs ++ evs3, some e)
          | (fips, evs3, none) =>
            ({ ri with internalPorts := ports2, floatingIps := fips,
                       exGwPort := ex_gw_port },
             evs2 ++ gw_evs ++ evs3, none)
        else
          ({ ri with internalPorts := ports2, exGwPort := ex_gw_port },
           evs2 ++ gw_evs, none)

/-- Agent configuration options consulted by the sync paths. -/
structure Conf where
  useNamespaces : Bool
  routerId : String
  handleInternalOnlyRouters : Bool
  gatewayExternalNetworkId : String
  externalNetworkBridge : String
deriving DecidableEq, Repr

/-- Outcome of the plugin RPC `get_external_network_id`. -/
inductive FetchExtResult where
  | ok (netId : String)
  | tooMany       -- RemoteError with exc_type TooManyExternalNetworks
  | failed        -- any other RemoteError
deriving DecidableEq, Repr

/-- External collaborators consulted during a sync: the bridge existence
check and the two plugin RPCs (`routersFetch = none` models the
`sync_routers` RPC itself raising). -/
structure Env where
  bridgeExists : Bool
  extNetFetch : FetchExtResult
  routersFetch : Option (List Router)
deriving DecidableEq, Repr

/-- `_fetch_external_net_id` (l3_agent.py:197-211). -/
def _fetch_external_net_id (conf : Conf) (env : Env) : Except Err String :=
  if conf.gatewayExternalNetworkId ≠ "" then .ok conf.gatewayExternalNetworkId
  else
    match env.extNetFetch with
    | .ok nid => .ok nid
    | .tooMany => .error .configRequired
    | .failed => .error .remoteError

/-- The router registry `self.router_info` (a Python dict keyed by router
id, insertion-ordered). -/
abbrev Registry := List (String × RouterInfo)

def regFind (reg : Registry) (k : String) : Option RouterInfo :=
  (reg.find? (fun p => p.1 == k)).map (fun p => p.2)

def regSet (reg : Registry) (k : String) (v : RouterInfo) : Registry :=
  if reg.any (fun p => p.1 == k) then
    reg.map (fun p => if p.1 = k then (k, v) else p)
  else reg ++ [(k, v)]

def regKeys (reg : Registry) : List String := reg.map Prod.fst

/-- `_router_added` (l3_agent.py:213-224) composed with the immediate
`ri.router = r` assignment at l3_agent.py:582: a fresh `RouterInfo` with no
gateway, ports or floating IPs.  Its namespace creation, metadata rules and
proxy spawn are summarized by the `routerAdded` event. -/
def routerInfoNew (router_id : String) (r : Router) : RouterInfo :=
  { routerId := router_id, exGwPort := none, internalPorts := [],
    floatingIps := [], router := r }

/-- The per-router loop of `_process_routers` (l3_agent.py:561-583),
including the four eligibility filters. -/
def routersLoop (conf : Conf) (target : String) :
    Registry → List Event → List Router → Registry × List Event × Option Err
  | reg, evs, [] => (reg, evs, none)
  | reg, evs, r :: rest =>
    if ¬ r.adminStateUp then routersLoop conf target reg evs rest
    else if ¬ conf.useNamespaces ∧ r.id ≠ conf.routerId then
      routersLoop conf target reg evs rest
    else if r.egNetworkId = "" ∧ ¬ conf.handleInternalOnlyRouters then
      routersLoop conf target reg evs rest
    else if r.egNetworkId ≠ "" ∧ r.egNetworkId ≠ target then
      routersLoop conf target reg evs rest
    else
      let step : Registry × List Event × RouterInfo :=
        match regFind reg r.id with
        | none =>
          let fresh := routerInfoNew r.id r
          (regSet reg r.id fresh, evs ++ [.routerAdded r.id], fresh)
        | some ri0 => (reg, evs, { ri0 with router := r })
      match process_router step.2.2 with
      | (ri2, evs2, some e) =>
        (regSet step.1 r.id ri2, step.2.1 ++ evs2, some e)
      | (ri2, evs2, none) =>
        routersLoop conf target (regSet step.1 r.id ri2) (step.2.1 ++ evs2) rest

/-- `_process_routers` (l3_agent.py:552-583). -/
def _process_routers (conf : Conf) (env : Env) (reg : Registry)
    (routers : List Router) : Registry × List Event × Option Err :=
  if conf.externalNetworkBridge ≠ "" ∧ ¬ env.bridgeExists then (reg, [], none)
  else
    match _fetch_external_net_id conf env with
    | .error e => (reg, [], some e)
    | .ok target => routersLoop conf target reg [] routers

/-- Agent state owned by the sync scheduler. -/
structure Agent where
  router_info : Registry
  fullsync : Bool
deriving DecidableEq, Repr

/-- `routers_updated` (l3_agent.py:540-550): early return on a falsy
descriptor list; otherwise run `_process_routers` under the semaphore,
swallowing any exception and setting the fullsync flag instead. -/
def routers_updated (conf : Conf) (env : Env) (a : Agent)
    (routers : List Router) : Agent × List Event :=
  if routers.isEmpty then (a, [])
  else
    match _process_routers conf env a.router_info routers with
    | (reg, evs, none) => ({ router_info := reg, fullsync := a.fullsync }, evs)
    | (reg, evs, some _) => ({ router_info := reg, fullsync := true }, evs)

/-- Wire form of one `sync_routers` RPC issued by the agent. -/
structure SyncCall where
  fullsyncArg : Option String
  routerIdsArg : Option (List String)
deriving DecidableEq, Repr

/-- `L3PluginApi.get_routers` (l3_agent.py:69-76) viewed from its two
positional parameters `fullsync` and `router_id`: it sends
`router_ids = [router_id] if router_id else None`. -/
def get_routers_call (fullsyncArg : Option String)
    (router_id : Option String) : SyncCall :=
  { fullsyncArg := fullsyncArg,
    routerIdsArg :=
      match router_id with
      | some rid => if rid ≠ "" then some [rid] else none
      | none => none }

/-- `_sync_routers_task` (l3_agent.py:585-602).  The source calls
`get_routers(context, router_id)` with `router_id` in positional position
two, which is `get_routers`'s `fullsync` parameter, so the computed
`router_id` travels as `fullsync` and the `router_id` parameter stays
`None`.  Returns the new agent state, the reconciliation events, and the
`sync_routers` call issued (if any). -/
def _sync_routers_task (conf : Conf) (env : Env) (a : Agent) :
    Agent × List Event × Option SyncCall :=
  if a.fullsync then
    let router_id : Option String :=
      if ¬ conf.useNamespaces then some conf.routerId else none
    let call := get_routers_call router_id none
    match env.routersFetch with
    | none => ({ a with fullsync := true }, [], some call)
    | some routers =>
      match _process_routers conf env [] routers with
      | (reg, evs, none) =>
        ({ router_info := reg, fullsync := false }, evs, some call)
      | (reg, evs, some _) =>
        ({ router_info := reg, fullsync := true }, evs, some call)
  else (a, [], none)

/-! ### Event classification and counting helpers -/

/-- Does the event belong to the floating-IP handler family? -/
def isFipEvent : Event → Bool
  | .floatingIpAdded _ _ => true
  | .floatingIpRemoved _ _ => true
  | _ => false

/-- Is the event an `internal_network_added` invocation for port id `i`? -/
def isInternalAddedFor (i : String) : Event → Bool
  | .internalNetworkAdded pid _ _ _ => pid == i
  | _ => false

/-- Is the event an `internal_network_removed` invocation for port id `i`? -/
def isInternalRemovedFor (i : String) : Event → Bool
  | .internalNetworkRemoved pid _ => pid == i
  | _ => false

/-- Is the event an `external_gateway_added` invocation? -/
def isGwAdded : Event → Bool
  | .externalGatewayAdded _ _ => true
  | _ => false

/-- Is the event an `external_gateway_removed` invocation? -/
def isGwRemoved : Event → Bool
  | .externalGatewayRemoved _ _ => true
  | _ => false

/-- Is the event an `internal_network_added` invocation (any port)? -/
def isInternalAddedEv : Event → Bool
  | .internalNetworkAdded _ _ _ _ => true
  | _ => false

/-- Is the event an `internal_network_removed` invocation (any port)? -/
def isInternalRemovedEv : Event → Bool
  | .internalNetworkRemoved _ _ => true
  | _ => false

/-- Number of events in the trace satisfying `p`. -/
def countEv (evs : List Event) (p : Event → Bool) : Nat :=
  (evs.filter p).length

/-! ### Concrete fixtures used by witnesses and counterexamples -/

/-- A well-formed external gateway port. -/
def gwA : Port :=
  { id := "gw1", networkId := "extnet", macAddress := "fa:16:3e:00:00:01",
    fixedIps := ["203.0.113.5"], subnetCidr := "203.0.113.0/24",
    adminStateUp := true }

/-- Internal admin-up port `pA`. -/
def pA : Port :=
  { id := "pa", networkId := "net-a", macAddress := "fa:16:3e:00:00:0a",
    fixedIps := ["10.0.0.1"], subnetCidr := "10.0.0.0/24",
    adminStateUp := true }

/-- Internal admin-up port `pB`. -/
def pB : Port :=
  { id := "pb", networkId := "net-b", macAddress := "fa:16:3e:00:00:0b",
    fixedIps := ["10.0.1.1"], subnetCidr := "10.0.1.0/24",
    adminStateUp := true }

/-- An admin-up internal port with no fixed IPs (`_set_subnet_info` raises
on it). -/
def pNoIp : Port :=
  { id := "px", networkId := "net-x", macAddress := "fa:16:3e:00:00:0c",
    fixedIps := [], subnetCidr := "10.0.9.0/24", adminStateUp := true }

/-- A bound floating IP about to be unbound. -/
def fipG1 : Fip :=
  { id := "fip-g1", floatingIpAddress := "198.51.100.1",
    fixedIpAddress := "10.0.0.11", portId := "p11" }

/-- A second bound floating IP about to be unbound. -/
def fipG2 : Fip :=
  { id := "fip-g2", floatingIpAddress := "198.51.100.2",
    fixedIpAddress := "10.0.0.12", portId := "p12" }

/-- Floating IP `F` bound to fixed address `A`. -/
def fipF : Fip :=
  { id := "fip-f", floatingIpAddress := "198.51.100.7",
    fixedIpAddress := "10.0.0.7", portId := "p7" }

/-- The same floating IP `F` remapped to fixed address `B`. -/
def fipFB : Fip :=
  { id := "fip-f", floatingIpAddress := "198.51.100.7",
    fixedIpAddress := "10.0.0.8", portId := "p8" }

/-- Descriptor entry keeping `F`'s id but with no associated port. -/
def fipFnoPort : Fip := { fipF with portId := "" }

/-- Baseline configuration: namespaces on, internal-only routers handled,
static external network id `"extnet"`, external bridge configured. -/
def confW : Conf :=
  { useNamespaces := true, routerId := "",
    handleInternalOnlyRouters := true,
    gatewayExternalNetworkId := "extnet",
    externalNetworkBridge := "br-ex" }

/-- Environment whose bridge exists and whose `sync_routers` RPC returns
`routers`. -/
def envW (routers : List Router) : Env :=
  { bridgeExists := true, extNetFetch := .ok "extnet",
    routersFetch := some routers }

/-- Router descriptor with a gateway and no interfaces or floating IPs. -/
def rGwOnly : Router :=
  { id := "r1", adminStateUp := true, egNetworkId := "extnet",
    gwPort := some gwA, interfaces := [], floatingips := [] }

/-- `rGwOnly` with floating IP `F` remapped to `B` in the descriptor. -/
def rRemap : Router := { rGwOnly with floatingips := [fipFB] }

/-- Admin-down router descriptor with id "r1". -/
def rDown : Router := { rGwOnly with adminStateUp := false }

/-- Router whose only (admin-up) interface has no fixed IPs. -/
def rBadPort : Router := { rGwOnly with id := "rbad", interfaces := [pNoIp] }

/-- Router with interfaces `pB` (already present) and `pA` (new). -/
def rPorts : Router := { rGwOnly with interfaces := [pB, pA] }

/-- Registry entry holding two floating IPs the next descriptor drops. -/
def riTwoFips : RouterInfo :=
  { routerId := "r1", exGwPort := some gwA, internalPorts := [],
    floatingIps := [fipG1, fipG2], router := rGwOnly }

/-- Registry entry with a to-be-removed floating IP listed before `F`,
reconciling a descriptor that remaps `F`. -/
def riPrecede : RouterInfo :=
  { routerId := "r1", exGwPort := some gwA, internalPorts := [],
    floatingIps := [fipG1, fipF], router := rRemap }

/-- Registry entry whose only floating IP is `F`; the descriptor remaps it. -/
def riRemapOnly : RouterInfo :=
  { routerId := "r1", exGwPort := some gwA, internalPorts := [],
    floatingIps := [fipF], router := rRemap }

/-- Registry entry whose floating IP keeps its id in the descriptor but
loses its association. -/
def riKeepId : RouterInfo :=
  { routerId := "r1", exGwPort := some gwA, internalPorts := [],
    floatingIps := [fipF],
    router := { rGwOnly with floatingips := [fipFnoPort] } }

/-- Fresh gateway arrival: no previous gateway, descriptor has one. -/
def riGwNew : RouterInfo :=
  { routerId := "r1", exGwPort := none, internalPorts := [],
    floatingIps := [], router := rGwOnly }

/-- Gateway removal: previous gateway, descriptor without one. -/
def riGwGone : RouterInfo :=
  { routerId := "r1", exGwPort := some gwA, internalPorts := [],
    floatingIps := [], router := { rGwOnly with gwPort := none } }

/-- One existing port `pB`; the descriptor keeps `pB` and adds `pA`. -/
def riPorts : RouterInfo :=
  { routerId := "r1", exGwPort := some gwA, internalPorts := [pB],
    floatingIps := [], router := rPorts }

/-- Agent holding `riTwoFips` under key "r1". -/
def agentTwoFips : Agent :=
  { router_info := [("r1", riTwoFips)], fullsync := false }

/-- Agent already holding router "r1". -/
def agentR1 : Agent :=
  { router_info := [("r1", riGwNew)], fullsync := false }

theorem countEv_append (l1 l2 : List Event) (p : Event → Bool) :
    countEv (l1 ++ l2) p = countEv l1 p + countEv l2 p := by
  simp [countEv, List.filter_append]

theorem countEv_nil (p : Event → Bool) : countEv [] p = 0 := rfl

theorem countEv_eq_zero {evs : List Event} {p : Event → Bool}
    (h : ∀ e ∈ evs, p e = false) : countEv evs p = 0 := by
  simp [countEv, List.filter_eq_nil_iff]
  exact h

theorem internalAdded_classes {e : Event} (h : isInternalAddedEv e = true) :
    isGwAdded e = false ∧ isGwRemoved e = false ∧ isFipEvent e = false ∧
    ∀ i, isInternalRemovedFor i e = false := by
  cases e <;> simp_all [isInternalAddedEv, isGwAdded, isGwRemoved, isFipEvent,
    isInternalRemovedFor]

theorem internalRemoved_classes {e : Event} (h : isInternalRemovedEv e = true) :
    isGwAdded e = false ∧ isGwRemoved e = false ∧ isFipEvent e = false ∧
    ∀ i, isInternalAddedFor i e = false := by
  cases e <;> simp_all [isInternalRemovedEv, isGwAdded, isGwRemoved, isFipEvent,
    isInternalAddedFor]

theorem fipEvent_classes {e : Event} (h : isFipEvent e = true) :
    isGwAdded e = false ∧ isGwRemoved e = false ∧
    (∀ i, isInternalAddedFor i e = false) ∧
    ∀ i, isInternalRemovedFor i e = false := by
  cases e <;> simp_all [isFipEvent, isGwAdded, isGwRemoved,
    isInternalAddedFor, isInternalRemovedFor]

/-! ### Port diff loop lemmas -/

theorem port_add_loop_evs (ex_gw : Option Port) :
    ∀ (l cur : List Port) (evs : List Event),
      ∃ t, (port_add_loop ex_gw l cur evs).2.1 = evs ++ t ∧
        ∀ e ∈ t, isInternalAddedEv e = true := by
  intro l
  induction l with
  | nil => intro cur evs; exact ⟨[], by simp [port_add_loop], by simp⟩
  | cons p rest ih =>
    intro cur evs
    by_cases hp : p.fixedIps.isEmpty
    · exact ⟨[], by simp [port_add_loop, hp], by simp⟩
    · simp only [port_add_loop, hp, Bool.false_eq_true, if_false]
      by_cases hgw : gwFixedOk ex_gw
      · simp only [hgw, if_true]
        obtain ⟨t, ht, hcl⟩ := ih (cur ++ [p])
          (evs ++ [.internalNetworkAdded p.id p.networkId (ip_cidr_of p) p.macAddress])
        refine ⟨.internalNetworkAdded p.id p.networkId (ip_cidr_of p) p.macAddress :: t,
          by rw [ht]; simp, ?_⟩
        intro e he
        rcases List.mem_cons.mp he with h1 | h2
        · simp [h1, isInternalAddedEv]
        · exact hcl e h2
      · simp only [hgw, Bool.false_eq_true, if_false]
        exact ⟨[.internalNetworkAdded p.id p.networkId (ip_cidr_of p) p.macAddress],
          by simp, by simp [isInternalAddedEv]⟩

theorem port_remove_loop_evs (ex_gw : Option Port) :
    ∀ (l cur : List Port) (evs : List Event),
      ∃ t, (port_remove_loop ex_gw l cur evs).2.1 = evs ++ t ∧
        ∀ e ∈ t, isInternalRemovedEv e = true := by
  intro l
  induction l with
  | nil => intro cur evs; exact ⟨[], by simp [port_remove_loop], by simp⟩
  | cons p rest ih =>
    intro cur evs
    simp only [port_remove_loop]
    by_cases hgw : gwFixedOk ex_gw
    · simp only [hgw, if_true]
      obtain ⟨t, ht, hcl⟩ := ih (listRemove cur p)
        (evs ++ [.internalNetworkRemoved p.id (ip_cidr_of p)])
      refine ⟨.internalNetworkRemoved p.id (ip_cidr_of p) :: t,
        by rw [ht]; simp, ?_⟩
      intro e he
      rcases List.mem_cons.mp he with h1 | h2
      · simp [h1, isInternalRemovedEv]
      · exact hcl e h2
    · simp only [hgw, Bool.false_eq_true, if_false]
      exact ⟨[.internalNetworkRemoved p.id (ip_cidr_of p)],
        by simp, by simp [isInternalRemovedEv]⟩

theorem port_add_loop_ok (ex_gw : Option Port) (hgw : gwFixedOk ex_gw = true) :
    ∀ (l cur : List Port) (evs : List Event),
      (∀ p ∈ l, p.fixedIps ≠ []) →
      port_add_loop ex_gw l cur evs =
        (cur ++ l,
         evs ++ l.map (fun p =>
           .internalNetworkAdded p.id p.networkId (ip_cidr_of p) p.macAddress),
         none) := by
  intro l
  induction l with
  | nil => intro cur evs _; simp [port_add_loop]
  | cons p rest ih =>
    intro cur evs hfix
    have hp : p.fixedIps ≠ [] := hfix p (by simp)
    have hpe : p.fixedIps.isEmpty = false := by
      cases hfp : p.fixedIps with
      | nil => exact absurd hfp hp
      | cons a as => simp [hfp]
    simp only [port_add_loop, hpe, Bool.false_eq_true, if_false, hgw, if_true]
    rw [ih (cur ++ [p]) _ (fun q hq => hfix q (by simp [hq]))]
    simp

theorem port_remove_loop_ok (ex_gw : Option Port) (hgw : gwFixedOk ex_gw = true) :
    ∀ (l cur : List Port) (evs : List Event),
      port_remove_loop ex_gw l cur evs =
        (l.foldl listRemove cur,
         evs ++ l.map (fun p => .internalNetworkRemoved p.id (ip_cidr_of p)),
         none) := by
  intro l
  induction l with
  | nil => intro cur evs; simp [port_remove_loop]
  | cons p rest ih =>
    intro cur evs
    simp only [port_remove_loop, hgw, if_true]
    rw [ih]
    simp

/-! ### Python `list.remove` interaction with the computed diff -/

theorem listRemove_cons_ne {α : Type} [DecidableEq α] {x a : α} (l : List α)
    (h : x ≠ a) : listRemove (x :: l) a = x :: listRemove l a := by
  simp [listRemove, h]

/-- Folding removals of elements distinct from the head skips the head. -/
theorem foldl_listRemove_cons {α : Type} [DecidableEq α] {x : α} :
    ∀ (ys l : List α), x ∉ ys →
      ys.foldl listRemove (x :: l) = x :: ys.foldl listRemove l := by
  intro ys
  induction ys with
  | nil => intro l _; rfl
  | cons y ys ih =>
    intro l hx
    have hxy : x ≠ y := fun h => hx (h ▸ List.mem_cons_self y ys)
    simp only [List.foldl_cons, listRemove_cons_ne l hxy]
    exact ih _ (fun h => hx (List.mem_cons_of_mem y h))

/-- Removing exactly the elements failing `p` from `l ++ m` leaves the
elements of `l` satisfying `p`, followed by `m` untouched. -/
theorem foldl_listRemove_filter {α : Type} [DecidableEq α] (p : α → Bool) :
    ∀ (l m : List α), l.Nodup →
      ((l.filter (fun x => !(p x))).foldl listRemove (l ++ m)) =
        l.filter p ++ m := by
  intro l
  induction l with
  | nil => intro m _; rfl
  | cons x xs ih =>
    intro m hnd
    have hx : x ∉ xs := (List.nodup_cons.mp hnd).1
    have hxs : xs.Nodup := (List.nodup_cons.mp hnd).2
    by_cases hp : p x
    · have h1 : (x :: xs).filter (fun y => !(p y)) = xs.filter (fun y => !(p y)) := by
        simp [List.filter_cons, hp]
      have h2 : (x :: xs).filter p = x :: xs.filter p := by
        simp [List.filter_cons, hp]
      rw [h1, h2, List.cons_append,
        foldl_listRemove_cons _ _ (fun h => hx (List.mem_of_mem_filter h)),
        ih m hxs]
      rfl
    · have hp' : p x = false := by simpa using hp
      have h1 : (x :: xs).filter (fun y => !(p y)) =
          x :: xs.filter (fun y => !(p y)) := by
        simp [List.filter_cons, hp']
      have h2 : (x :: xs).filter p = xs.filter p := by
        simp [List.filter_cons, hp']
      rw [h1, h2, List.cons_append, List.foldl_cons]
      have h3 : listRemove (x :: (xs ++ m)) x = xs ++ m := by
        simp [listRemove]
      rw [h3, ih m hxs]

/-! ### Floating-IP loop lemmas -/

theorem fip_add_loop_evs (gw : Option Port) (ex : List String) :
    ∀ (l cur : List Fip) (m : List (String × Fip)) (evs : List Event),
      ∃ t, (fip_add_loop gw ex l cur m evs).2.1 = evs ++ t ∧
        ∀ e ∈ t, isFipEvent e = true := by
  intro l
  induction l with
  | nil => intro cur m evs; exact ⟨[], by simp [fip_add_loop], by simp⟩
  | cons f rest ih =>
    intro cur m evs
    simp only [fip_add_loop]
    by_cases hport : f.portId = ""
    · simpa [hport] using ih cur m evs
    · simp only [hport, ne_eq, not_false_eq_true, if_true]
      by_cases hex : f.id ∈ ex
      · simpa [hex] using ih cur (mapInsert m f.id f) evs
      · simp only [hex, if_false]
        cases gw with
        | none => exact ⟨[], by simp, by simp⟩
        | some g =>
          obtain ⟨t, ht, hcl⟩ := ih (cur ++ [f]) (mapInsert m f.id f)
            (evs ++ [.floatingIpAdded f.floatingIpAddress f.fixedIpAddress])
          refine ⟨.floatingIpAdded f.floatingIpAddress f.fixedIpAddress :: t,
            by rw [ht]; simp, ?_⟩
          intro e he
          rcases List.mem_cons.mp he with h1 | h2
          · simp [h1, isFipEvent]
          · exact hcl e h2

/-- Closed form of the first floating-IP loop when a (new) gateway port is
present: it appends exactly the associated descriptor floating IPs whose id
is new, emits one `floating_ip_added` per appended entry, and records every
associated descriptor entry in `id_to_fip_map`. -/
theorem fip_add_loop_some (g : Port) (ex : List String) :
    ∀ (l cur : List Fip) (m : List (String × Fip)) (evs : List Event),
      fip_add_loop (some g) ex l cur m evs =
        ((cur ++ l.filter (fun f => decide (f.portId ≠ "" ∧ f.id ∉ ex)),
          (l.filter (fun f => decide (f.portId ≠ ""))).foldl
            (fun acc f => mapInsert acc f.id f) m),
         evs ++ (l.filter (fun f => decide (f.portId ≠ "" ∧ f.id ∉ ex))).map
           (fun f => .floatingIpAdded f.floatingIpAddress f.fixedIpAddress),
         none) := by
  intro l
  induction l with
  | nil => intro cur m evs; simp [fip_add_loop]
  | cons f rest ih =>
    intro cur m evs
    simp only [fip_add_loop]
    by_cases hport : f.portId = ""
    · rw [if_neg (by simp [hport])]
      rw [ih cur m evs]
      simp [List.filter_cons, hport]
    · rw [if_pos (by simp [hport])]
      by_cases hex : f.id ∈ ex
      · rw [if_pos hex, ih cur (mapInsert m f.id f) evs]
        simp [List.filter_cons, hport, hex]
      · rw [if_neg hex]
        rw [ih]
        simp [List.filter_cons, hport, hex]

theorem mapFind_insert (m : List (String × Fip)) (k : String) (v : Fip)
    (k' : String) :
    mapFind (mapInsert m k v) k' = if k' = k then some v else mapFind m k' := by
  by_cases h : k' = k
  · simp [mapInsert, mapFind, List.find?_cons, h]
  · simp [mapInsert, mapFind, List.find?_cons, h, Ne.symm h]

/-- Lookup after folding inserts over entries whose ids avoid `k` falls
through to the original map. -/
theorem mapFind_foldl_not_mem (k : String) :
    ∀ (l : List Fip) (m : List (String × Fip)), (∀ f ∈ l, f.id ≠ k) →
      mapFind (l.foldl (fun acc f => mapInsert acc f.id f) m) k = mapFind m k := by
  intro l
  induction l with
  | nil => intro m _; rfl
  | cons f rest ih =>
    intro m hl
    rw [List.foldl_cons, ih _ (fun q hq => hl q (List.mem_cons_of_mem f hq)),
      mapFind_insert, if_neg (Ne.symm (hl f (List.mem_cons_self f rest)))]

/-- With pairwise distinct ids, folding inserts makes the member `f` with
id `k` the lookup result. -/
theorem mapFind_foldl_mem (k : String) :
    ∀ (l : List Fip) (m : List (String × Fip)) (f : Fip),
      (l.map Fip.id).Nodup → f ∈ l → f.id = k →
      mapFind (l.foldl (fun acc f => mapInsert acc f.id f) m) k = some f := by
  intro l
  induction l with
  | nil => intro m f _ hf; cases hf
  | cons g rest ih =>
    intro m f hnd hf hk
    have hnd' : (rest.map Fip.id).Nodup := (List.nodup_cons.mp (by simpa using hnd)).2
    have hg : g.id ∉ rest.map Fip.id := (List.nodup_cons.mp (by simpa using hnd)).1
    rcases List.mem_cons.mp hf with h1 | h2
    · subst h1
      rw [List.foldl_cons]
      rw [mapFind_foldl_not_mem k rest _ ?_]
      · rw [mapFind_insert, if_pos hk.symm]
      · intro q hq hqk
        exact hg (hk ▸ hqk ▸ List.mem_map_of_mem Fip.id hq)
    · exact ih _ f hnd' h2 hk

theorem fip_scan_loop_stop (gw : Option Port) (tr : List String)
    (m : List (String × Fip)) (i : Nat) (cur : List Fip) (evs : List Event)
    (h : ¬ i < cur.length) :
    fip_scan_loop gw tr m i cur evs = (cur, evs, none) := by
  rw [fip_scan_loop]
  simp [h]

theorem fip_scan_loop_remove_step (g : Port) (tr : List String)
    (m : List (String × Fip)) (i : Nat) (cur : List Fip) (evs : List Event)
    (h : i < cur.length) (h1 : (cur.get ⟨i, h⟩).id ∈ tr) :
    fip_scan_loop (some g) tr m i cur evs =
      fip_scan_loop (some g) tr m (i + 1) (listRemove cur (cur.get ⟨i, h⟩))
        (evs ++ [.floatingIpRemoved (cur.get ⟨i, h⟩).floatingIpAddress
                  (cur.get ⟨i, h⟩).fixedIpAddress]) := by
  have h1' : cur[i].id ∈ tr := by simpa using h1
  conv_lhs => rw [fip_scan_loop]
  simp [h, h1']

theorem fip_scan_loop_remap_step (g : Port) (tr : List String)
    (m : List (String × Fip)) (i : Nat) (cur : List Fip) (evs : List Event)
    (h : i < cur.length) (h1 : (cur.get ⟨i, h⟩).id ∉ tr) (nf : Fip)
    (h2 : mapFind m (cur.get ⟨i, h⟩).id = some nf)
    (h3 : nf.fixedIpAddress ≠ "" ∧ (cur.get ⟨i, h⟩).fixedIpAddress ≠ "" ∧
          nf.fixedIpAddress ≠ (cur.get ⟨i, h⟩).fixedIpAddress) :
    fip_scan_loop (some g) tr m i cur evs =
      fip_scan_loop (some g) tr m (i + 1)
        (listRemove cur (cur.get ⟨i, h⟩) ++ [nf])
        (evs ++ [.floatingIpRemoved (cur.get ⟨i, h⟩).floatingIpAddress
                  (cur.get ⟨i, h⟩).fixedIpAddress,
                 .floatingIpAdded (cur.get ⟨i, h⟩).floatingIpAddress
                  nf.fixedIpAddress]) := by
  have h1' : cur[i].id ∉ tr := by simpa using h1
  have h2' : mapFind m cur[i].id = some nf := by simpa using h2
  have h3' : nf.fixedIpAddress ≠ "" ∧ cur[i].fixedIpAddress ≠ "" ∧
      nf.fixedIpAddress ≠ cur[i].fixedIpAddress := by simpa using h3
  conv_lhs => rw [fip_scan_loop]
  simp [h, h1', h2', h3']

theorem fip_scan_loop_noop_step (gw : Option Port) (tr : List String)
    (m : List (String × Fip)) (i : Nat) (cur : List Fip) (evs : List Event)
    (h : i < cur.length) (h1 : (cur.get ⟨i, h⟩).id ∉ tr) (nf : Fip)
    (h2 : mapFind m (cur.get ⟨i, h⟩).id = some nf)
    (h3 : ¬ (nf.fixedIpAddress ≠ "" ∧ (cur.get ⟨i, h⟩).fixedIpAddress ≠ "" ∧
             nf.fixedIpAddress ≠ (cur.get ⟨i, h⟩).fixedIpAddress)) :
    fip_scan_loop gw tr m i cur evs = fip_scan_loop gw tr m (i + 1) cur evs := by
  have h1' : cur[i].id ∉ tr := by simpa using h1
  have h2' : mapFind m cur[i].id = some nf := by simpa using h2
  have h3' : ¬ (nf.fixedIpAddress ≠ "" ∧ cur[i].fixedIpAddress ≠ "" ∧
      nf.fixedIpAddress ≠ cur[i].fixedIpAddress) := by
    intro hc
    exact h3 (by simpa using hc)
  conv_lhs => rw [fip_scan_loop]
  simp [h, h1', h2', h3']

theorem fip_scan_loop_keyerror_step (gw : Option Port) (tr : List String)
    (m : List (String × Fip)) (i : Nat) (cur : List Fip) (evs : List Event)
    (h : i < cur.length) (h1 : (cur.get ⟨i, h⟩).id ∉ tr)
    (h2 : mapFind m (cur.get ⟨i, h⟩).id = none) :
    fip_scan_loop gw tr m i cur evs =
      (cur, evs, some (.keyError (cur.get ⟨i, h⟩).id)) := by
  have h1' : cur[i].id ∉ tr := by simpa using h1
  have h2' : mapFind m cur[i].id = none := by simpa using h2
  conv_lhs => rw [fip_scan_loop]
  simp [h, h1', h2']

theorem fip_scan_loop_evs (gw : Option Port) (tr : List String)
    (m : List (String × Fip)) (i : Nat) (cur : List Fip) (evs : List Event) :
    ∃ t, (fip_scan_loop gw tr m i cur evs).2.1 = evs ++ t ∧
      ∀ e ∈ t, isFipEvent e = true := by
  refine fip_scan_loop.induct gw tr m
    (motive := fun i cur evs =>
      ∃ t, (fip_scan_loop gw tr m i cur evs).2.1 = evs ++ t ∧
        ∀ e ∈ t, isFipEvent e = true)
    ?_ ?_ ?_ ?_ ?_ ?_ ?_ i cur evs
  · intro i cur evs h fip hmem hnone
    refine ⟨[], ?_, by simp⟩
    rw [hnone, fip_scan_loop]
    have hmem' : cur[i].id ∈ tr := by simpa using hmem
    simp [h, hmem']
  · intro i cur evs h fip hmem g hg ih
    obtain ⟨t, ht, hcl⟩ := ih
    subst hg
    rw [fip_scan_loop_remove_step g tr m i cur evs h hmem, ht]
    refine ⟨.floatingIpRemoved fip.floatingIpAddress fip.fixedIpAddress :: t,
      by simp, ?_⟩
    intro e he
    rcases List.mem_cons.mp he with h1 | h2
    · simp [h1, isFipEvent]
    · exact hcl e h2
  · intro i cur evs h fip hni hfind
    exact ⟨[], by
      rw [fip_scan_loop_keyerror_step gw tr m i cur evs h hni hfind]; simp,
      by simp⟩
  · intro i cur evs h fip hni nf hnf hcond hg
    refine ⟨[], ?_, by simp⟩
    subst hg
    rw [fip_scan_loop]
    have hni' : cur[i].id ∉ tr := by simpa using hni
    have hnf' : mapFind m cur[i].id = some nf := by simpa using hnf
    have hcond' : nf.fixedIpAddress ≠ "" ∧ cur[i].fixedIpAddress ≠ "" ∧
        nf.fixedIpAddress ≠ cur[i].fixedIpAddress := by simpa using hcond
    simp [h, hni', hnf', hcond']
  · intro i cur evs h fip hni nf hnf hcond g hg ih
    obtain ⟨t, ht, hcl⟩ := ih
    subst hg
    rw [fip_scan_loop_remap_step g tr m i cur evs h hni nf hnf hcond, ht]
    refine ⟨.floatingIpRemoved fip.floatingIpAddress fip.fixedIpAddress ::
      .floatingIpAdded fip.floatingIpAddress nf.fixedIpAddress :: t, by simp, ?_⟩
    intro e he
    rcases List.mem_cons.mp he with h1 | he2
    · simp [h1, isFipEvent]
    · rcases List.mem_cons.mp he2 with h2 | h3
      · simp [h2, isFipEvent]
      · exact hcl e h3
  · intro i cur evs h fip hni nf hnf hcond ih
    rwa [fip_scan_loop_noop_step gw tr m i cur evs h hni nf hnf hcond]
  · intro i cur evs h
    exact ⟨[], by rw [fip_scan_loop_stop gw tr m i cur evs h]; simp, by simp⟩

/-- Every event the floating-IP reconciler emits is a floating-IP handler
invocation. -/
theorem process_router_floating_ips_evs (ri_fips : List Fip)
    (ri_ex_gw : Option Port) (router_fips : List Fip) (ex_gw : Option Port) :
    ∀ e ∈ (process_router_floating_ips ri_fips ri_ex_gw router_fips ex_gw).2.1,
      isFipEvent e = true := by
  intro ev hev
  unfold process_router_floating_ips at hev
  dsimp only at hev
  obtain ⟨t, ht, hcl⟩ := fip_add_loop_evs ex_gw (ri_fips.map Fip.id)
    router_fips ri_fips [] []
  rcases hadd : fip_add_loop ex_gw (ri_fips.map Fip.id) router_fips ri_fips [] []
    with ⟨⟨cur, m⟩, evs, err⟩
  rw [hadd] at ht hev
  simp only at ht
  cases err with
  | some e =>
    simp only at hev
    exact hcl ev (by rw [ht] at hev; simpa using hev)
  | none =>
    simp only at hev
    obtain ⟨t2, ht2, hcl2⟩ := fip_scan_loop_evs ri_ex_gw
      ((ri_fips.map Fip.id).filter
        (fun x => decide (x ∉ router_fips.map Fip.id))) m 0 cur evs
    rw [ht2] at hev
    rcases List.mem_append.mp hev with h1 | h2
    · exact hcl ev (by rw [ht] at h1; simpa using h1)
    · exact hcl2 ev h2

/-- Success shape of the port-diff phase of `process_router`: with distinct
existing ports, fixed IPs present on every prospective new port, and a
well-formed gateway port, the resulting internal port list is the kept
(still-active) existing ports followed by the appended new ports, and the
event trace is the add events, then the remove events, then only gateway
and floating-ip events. -/
theorem process_router_shape (ri : RouterInfo)
    (hE : ri.internalPorts.Nodup)
    (hfix : ∀ p ∈ new_ports ri, p.fixedIps ≠ [])
    (hgw : gwFixedOk ri.router.gwPort = true) :
    ∃ gwt fipt : List Event,
      (process_router ri).1.internalPorts =
        ri.internalPorts.filter
          (fun p => decide (p.id ∈ current_port_ids ri)) ++ new_ports ri ∧
      (process_router ri).2.1 =
        (new_ports ri).map (fun p =>
          .internalNetworkAdded p.id p.networkId (ip_cidr_of p) p.macAddress) ++
        (old_ports ri).map (fun p =>
          .internalNetworkRemoved p.id (ip_cidr_of p)) ++ gwt ++ fipt ∧
      (∀ e ∈ gwt, isGwAdded e = true ∨ isGwRemoved e = true) ∧
      (∀ e ∈ fipt, isFipEvent e = true) ∧
      countEv gwt isGwAdded =
        (if ri.router.gwPort.isSome ∧ ri.exGwPort = none then 1 else 0) ∧
      countEv gwt isGwRemoved =
        (if ri.router.gwPort = none ∧ ri.exGwPort.isSome then 1 else 0) := by
  have hadd := port_add_loop_ok ri.router.gwPort hgw (new_ports ri)
    ri.internalPorts [] hfix
  have hrem := port_remove_loop_ok ri.router.gwPort hgw (old_ports ri)
    (ri.internalPorts ++ new_ports ri)
    ([] ++ (new_ports ri).map (fun p =>
      Event.internalNetworkAdded p.id p.networkId (ip_cidr_of p) p.macAddress))
  have hfold : (old_ports ri).foldl listRemove
      (ri.internalPorts ++ new_ports ri) =
      ri.internalPorts.filter
        (fun p => decide (p.id ∈ current_port_ids ri)) ++ new_ports ri := by
    have heq : old_ports ri = ri.internalPorts.filter
        (fun p => !(decide (p.id ∈ current_port_ids ri))) := by
      unfold old_ports
      exact List.filter_congr (fun p _ => by simp)
    rw [heq]
    exact foldl_listRemove_filter _ ri.internalPorts (new_ports ri) hE
  unfold process_router
  dsimp only
  rw [hadd]
  dsimp only
  rw [hrem, hfold]
  dsimp only
  set P2 := ri.internalPorts.filter
    (fun p => decide (p.id ∈ current_port_ids ri)) ++ new_ports ri with hP2
  set addEvs := (new_ports ri).map (fun p =>
    Event.internalNetworkAdded p.id p.networkId (ip_cidr_of p) p.macAddress)
    with haddEvs
  set remEvs := (old_ports ri).map (fun p =>
    Event.internalNetworkRemoved p.id (ip_cidr_of p)) with hremEvs
  rcases hg : ri.router.gwPort with _ | g
  all_goals rcases hg0 : ri.exGwPort with _ | g0
  · -- no gateway on either side: no floating-ip phase
    refine ⟨[], [], by simp, by simp, by simp, by simp, by simp [countEv],
      by simp [countEv]⟩
  · -- gateway removed
    dsimp only
    by_cases hempty : g0.fixedIps.isEmpty
    · refine ⟨[.externalGatewayRemoved g0.id (P2.map ip_cidr_of)], [],
        by simp [hempty], by simp [hempty], by simp [isGwRemoved], by simp,
        by simp [countEv, isGwAdded], by simp [countEv, isGwRemoved]⟩
    · have hrun := process_router_floating_ips_evs ri.floatingIps (some g0)
        ri.router.floatingips none
      rcases hfip : process_router_floating_ips ri.floatingIps (some g0)
        ri.router.floatingips none with ⟨fips, evs3, err3⟩
      rw [hfip] at hrun
      simp only [hempty, if_neg, Bool.false_eq_true] at *
      cases err3 with
      | some e =>
        refine ⟨[.externalGatewayRemoved g0.id (P2.map ip_cidr_of)], evs3,
          ?_, ?_, by simp [isGwRemoved], hrun,
          by simp [countEv, isGwAdded], by simp [countEv, isGwRemoved]⟩
        · simp [process_router, hfip, hempty]
        · simp [process_router, hfip, hempty]
      | none =>
        refine ⟨[.externalGatewayRemoved g0.id (P2.map ip_cidr_of)], evs3,
          ?_, ?_, by simp [isGwRemoved], hrun,
          by simp [countEv, isGwAdded], by simp [countEv, isGwRemoved]⟩
        · simp [process_router, hfip, hempty]
        · simp [process_router, hfip, hempty]
  · -- gateway added (hgw rules out the empty-fixed-ips error)
    have hempty : g.fixedIps.isEmpty = false := by
      simpa [gwFixedOk, hg] using hgw
    dsimp only
    have hrun := process_router_floating_ips_evs ri.floatingIps none
      ri.router.floatingips (some g)
    rcases hfip : process_router_floating_ips ri.floatingIps none
      ri.router.floatingips (some g) with ⟨fips, evs3, err3⟩
    rw [hfip] at hrun
    cases err3 with
    | some e =>
      refine ⟨[.externalGatewayAdded g.id (P2.map ip_cidr_of)], evs3,
        ?_, ?_, by simp [isGwAdded], hrun,
        by simp [countEv, isGwAdded], by simp [countEv, isGwRemoved]⟩
      · simp [hfip, hempty]
      · simp [hfip, hempty]
    | none =>
      refine ⟨[.externalGatewayAdded g.id (P2.map ip_cidr_of)], evs3,
        ?_, ?_, by simp [isGwAdded], hrun,
        by simp [countEv, isGwAdded], by simp [countEv, isGwRemoved]⟩
      · simp [hfip, hempty]
      · simp [hfip, hempty]
  · -- gateway unchanged (present on both sides)
    dsimp only
    have hrun := process_router_floating_ips_evs ri.floatingIps (some g0)
      ri.router.floatingips (some g)
    rcases hfip : process_router_floating_ips ri.floatingIps (some g0)
      ri.router.floatingips (some g) with ⟨fips, evs3, err3⟩
    rw [hfip] at hrun
    cases err3 with
    | some e =>
      refine ⟨[], evs3, ?_, ?_, by simp, hrun, by simp [countEv],
        by simp [countEv]⟩
      · simp [hfip]
      · simp [hfip]
    | none =>
      refine ⟨[], evs3, ?_, ?_, by simp, hrun, by simp [countEv],
        by simp [countEv]⟩
      · simp [hfip]
      · simp [hfip]

theorem gwEvent_classes {e : Event}
    (h : isGwAdded e = true ∨ isGwRemoved e = true) :
    isFipEvent e = false ∧ (∀ i, isInternalAddedFor i e = false) ∧
    ∀ i, isInternalRemovedFor i e = false := by
  cases e <;> simp_all [isFipEvent, isGwAdded, isGwRemoved,
    isInternalAddedFor, isInternalRemovedFor]

theorem countEv_cons (e : Event) (t : List Event) (p : Event → Bool) :
    countEv (e :: t) p = (if p e = true then 1 else 0) + countEv t p := by
  by_cases h : p e = true <;> simp [countEv, List.filter_cons, h, Nat.add_comm]

theorem countEv_added_map (i : String) :
    ∀ l : List Port,
      countEv (l.map (fun p =>
        Event.internalNetworkAdded p.id p.networkId (ip_cidr_of p) p.macAddress))
        (isInternalAddedFor i) = (l.map Port.id).count i := by
  intro l
  induction l with
  | nil => rfl
  | cons p rest ih =>
    rw [List.map_cons, countEv_cons, ih, List.map_cons, List.count_cons]
    have : isInternalAddedFor i
        (Event.internalNetworkAdded p.id p.networkId (ip_cidr_of p) p.macAddress) =
        (p.id == i) := rfl
    rw [this]
    by_cases h : p.id = i
    · simp [h, Nat.add_comm]
    · simp [h, Ne.symm h]

theorem countEv_removed_map (i : String) :
    ∀ l : List Port,
      countEv (l.map (fun p =>
        Event.internalNetworkRemoved p.id (ip_cidr_of p)))
        (isInternalRemovedFor i) = (l.map Port.id).count i := by
  intro l
  induction l with
  | nil => rfl
  | cons p rest ih =>
    rw [List.map_cons, countEv_cons, ih, List.map_cons, List.count_cons]
    have : isInternalRemovedFor i
        (Event.internalNetworkRemoved p.id (ip_cidr_of p)) = (p.id == i) := rfl
    rw [this]
    by_cases h : p.id = i
    · simp [h, Nat.add_comm]
    · simp [h, Ne.symm h]

theorem mem_new_ports_ids (ri : RouterInfo) (i : String) :
    i ∈ (new_ports ri).map Port.id ↔
      i ∈ current_port_ids ri ∧ i ∉ ri.internalPorts.map Port.id := by
  constructor
  · rintro hmem
    rcases List.mem_map.mp hmem with ⟨p, hp, rfl⟩
    have := List.of_mem_filter hp
    simpa using this
  · rintro ⟨hC, hE⟩
    rcases List.mem_map.mp hC with ⟨q, hq, rfl⟩
    refine List.mem_map.mpr ⟨q, List.mem_filter.mpr ⟨List.mem_of_mem_filter hq, ?_⟩, rfl⟩
    rw [decide_eq_true_eq]
    exact ⟨hC, hE⟩

theorem mem_old_ports_ids (ri : RouterInfo) (i : String) :
    i ∈ (old_ports ri).map Port.id ↔
      i ∈ ri.internalPorts.map Port.id ∧ i ∉ current_port_ids ri := by
  constructor
  · rintro hmem
    rcases List.mem_map.mp hmem with ⟨p, hp, rfl⟩
    exact ⟨List.mem_map.mpr ⟨p, List.mem_of_mem_filter hp, rfl⟩,
      by simpa using List.of_mem_filter hp⟩
  · rintro ⟨hE, hC⟩
    rcases List.mem_map.mp hE with ⟨p, hp, rfl⟩
    exact List.mem_map.mpr ⟨p, List.mem_filter.mpr ⟨hp, by simpa using hC⟩, rfl⟩

/-- `process_router` reads the descriptor's interface list only through the
computed port diff: two states agreeing on everything except the raw
descriptor's interface list, and producing the same diff, yield the same
ports, floating IPs, gateway baseline, events and error. -/
theorem process_router_congr (ri ri' : RouterInfo)
    (h1 : ri'.internalPorts = ri.internalPorts)
    (h2 : ri'.exGwPort = ri.exGwPort)
    (h3 : ri'.floatingIps = ri.floatingIps)
    (h4 : ri'.router.gwPort = ri.router.gwPort)
    (h5 : ri'.router.floatingips = ri.router.floatingips)
    (h6 : new_ports ri' = new_ports ri)
    (h7 : old_ports ri' = old_ports ri) :
    (process_router ri').1.internalPorts = (process_router ri).1.internalPorts ∧
    (process_router ri').1.exGwPort = (process_router ri).1.exGwPort ∧
    (process_router ri').1.floatingIps = (process_router ri).1.floatingIps ∧
    (process_router ri').2 = (process_router ri).2 := by
  unfold process_router
  dsimp only
  rw [h1, h2, h3, h4, h5, h6, h7]
  rcases hA : port_add_loop ri.router.gwPort (new_ports ri) ri.internalPorts []
    with ⟨p1, e1, errA⟩
  cases errA with
  | some e => simp
  | none =>
    dsimp only
    rcases hB : port_remove_loop ri.router.gwPort (old_ports ri) p1 e1
      with ⟨p2, e2, errB⟩
    cases errB with
    | some e => simp
    | none =>
      dsimp only
      rcases hg : ri.router.gwPort with _ | g
      all_goals rcases hg0 : ri.exGwPort with _ | g0
      all_goals dsimp only
      · simp
      · by_cases hempty : g0.fixedIps.isEmpty
        · simp [hempty]
        · simp only [hempty, Bool.false_eq_true, if_false]
          rcases hF : process_router_floating_ips ri.floatingIps (some g0)
            ri.router.floatingips none with ⟨fips, e3, errC⟩
          cases errC <;> simp
      · by_cases hempty : g.fixedIps.isEmpty
        · simp [hempty]
        · simp only [hempty, Bool.false_eq_true, if_false]
          rcases hF : process_router_floating_ips ri.floatingIps none
            ri.router.floatingips (some g) with ⟨fips, e3, errC⟩
          cases errC <;> simp
      · rcases hF : process_router_floating_ips ri.floatingIps (some g0)
          ri.router.floatingips (some g) with ⟨fips, e3, errC⟩
        cases errC <;> simp

/-- `process_router` never changes the stored descriptor or the router id,
and on a successful (exception-free) run stores the descriptor's gateway
port as the new baseline (l3_agent.py:306; the assignment is skipped when
an exception aborts the call earlier). -/
theorem process_router_baseline (ri : RouterInfo) :
    (process_router ri).1.router = ri.router ∧
    ((process_router ri).2.2 = none →
      (process_router ri).1.exGwPort = ri.router.gwPort) := by
  unfold process_router
  dsimp only
  rcases port_add_loop ri.router.gwPort (new_ports ri) ri.internalPorts []
    with ⟨p1, e1, errA⟩
  cases errA with
  | some e => simp
  | none =>
    dsimp only
    rcases port_remove_loop ri.router.gwPort (old_ports ri) p1 e1
      with ⟨p2, e2, errB⟩
    cases errB with
    | some e => simp
    | none =>
      dsimp only
      rcases hg : ri.router.gwPort with _ | g
      all_goals rcases hg0 : ri.exGwPort with _ | g0
      all_goals dsimp only
      · simp
      · by_cases hempty : g0.fixedIps.isEmpty
        · simp [hempty]
        · simp only [hempty, Bool.false_eq_true, if_false]
          rcases process_router_floating_ips ri.floatingIps (some g0)
            ri.router.floatingips none with ⟨fips, e3, errC⟩
          cases errC <;> simp
      · by_cases hempty : g.fixedIps.isEmpty
        · simp [hempty]
        · simp only [hempty, Bool.false_eq_true, if_false]
          rcases process_router_floating_ips ri.floatingIps none
            ri.router.floatingips (some g) with ⟨fips, e3, errC⟩
          cases errC <;> simp
      · rcases process_router_floating_ips ri.floatingIps (some g0)
          ri.router.floatingips (some g) with ⟨fips, e3, errC⟩
        cases errC <;> simp

/-- With the stored gateway baseline equal to the descriptor's gateway
port, `process_router` performs no gateway-level operation at all,
whatever else it does or whether it raises. -/
theorem process_router_gw_counts (ri : RouterInfo)
    (hEq : ri.exGwPort = ri.router.gwPort) :
    countEv (process_router ri).2.1 isGwAdded = 0 ∧
    countEv (process_router ri).2.1 isGwRemoved = 0 := by
  unfold process_router
  dsimp only
  obtain ⟨t1, ht1, hcl1⟩ := port_add_loop_evs ri.router.gwPort (new_ports ri)
    ri.internalPorts []
  rcases hA : port_add_loop ri.router.gwPort (new_ports ri) ri.internalPorts []
    with ⟨p1, e1, errA⟩
  rw [hA] at ht1
  simp only at ht1
  have he1 : ∀ e ∈ e1, isInternalAddedEv e = true := by
    rw [ht1]
    simpa using hcl1
  have hc1A : countEv e1 isGwAdded = 0 :=
    countEv_eq_zero (fun e he => (internalAdded_classes (he1 e he)).1)
  have hc1R : countEv e1 isGwRemoved = 0 :=
    countEv_eq_zero (fun e he => (internalAdded_classes (he1 e he)).2.1)
  cases errA with
  | some e => exact ⟨hc1A, hc1R⟩
  | none =>
    dsimp only
    obtain ⟨t2, ht2, hcl2⟩ := port_remove_loop_evs ri.router.gwPort
      (old_ports ri) p1 e1
    rcases hB : port_remove_loop ri.router.gwPort (old_ports ri) p1 e1
      with ⟨p2, e2, errB⟩
    rw [hB] at ht2
    simp only at ht2
    have hc2A : countEv e2 isGwAdded = 0 := by
      rw [ht2, countEv_append, hc1A]
      have := countEv_eq_zero
        (fun e he => (internalRemoved_classes (hcl2 e he)).1)
      omega
    have hc2R : countEv e2 isGwRemoved = 0 := by
      rw [ht2, countEv_append, hc1R]
      have := countEv_eq_zero
        (fun e he => (internalRemoved_classes (hcl2 e he)).2.1)
      omega
    cases errB with
    | some e => exact ⟨hc2A, hc2R⟩
    | none =>
      dsimp only
      rw [hEq]
      rcases hg : ri.router.gwPort with _ | g
      all_goals dsimp only
      · rw [if_neg (by simp)]
        dsimp only
        constructor
        · rw [countEv_append, hc2A, countEv_nil]
        · rw [countEv_append, hc2R, countEv_nil]
      · rw [if_pos (by simp)]
        have hfev := process_router_floating_ips_evs ri.floatingIps (some g)
          ri.router.floatingips (some g)
        rcases hF : process_router_floating_ips ri.floatingIps (some g)
          ri.router.floatingips (some g) with ⟨fips, e3, errC⟩
        rw [hF] at hfev
        have hc3A : countEv e3 isGwAdded = 0 :=
          countEv_eq_zero (fun e he => (fipEvent_classes (hfev e he)).1)
        have hc3R : countEv e3 isGwRemoved = 0 :=
          countEv_eq_zero (fun e he => (fipEvent_classes (hfev e he)).2.1)
        cases errC with
        | some e =>
          dsimp only
          constructor
          · rw [countEv_append, countEv_append, hc2A, countEv_nil, hc3A]
          · rw [countEv_append, countEv_append, hc2R, countEv_nil, hc3R]
        | none =>
          dsimp only
          constructor
          · rw [countEv_append, countEv_append, hc2A, countEv_nil, hc3A]
          · rw [countEv_append, countEv_append, hc2R, countEv_nil, hc3R]

/-! ### Claim theorems -/

/-- C1: For every reconciliation of a `RouterState` with existing internal
port-id set `E` and a descriptor whose admin-up internal port-id set is
`C`, after `process_router` the `RouterState`'s internal port-id set equals
`C` (a genuine set: no duplicates), `internal_network_added` is invoked
exactly once for each id in `C \\ E` (and never otherwise),
`internal_network_removed` exactly once for each id in `E \\ C` (and never
otherwise); and a port still present in the descriptor with
`adminStateUp = false` is treated identically to a deleted port: deleting
it from the descriptor changes neither the resulting ports, floating IPs,
gateway baseline, events nor error. -/
theorem process_router_port_diff (ri : RouterInfo)
    (hE : (ri.internalPorts.map Port.id).Nodup)
    (hD : (ri.router.interfaces.map Port.id).Nodup)
    (hfix : ∀ p ∈ new_ports ri, p.fixedIps ≠ [])
    (hgw : gwFixedOk ri.router.gwPort = true) :
    (∀ i : String,
      i ∈ (process_router ri).1.internalPorts.map Port.id ↔
        i ∈ current_port_ids ri) ∧
    ((process_router ri).1.internalPorts.map Port.id).Nodup ∧
    (∀ i : String, countEv (process_router ri).2.1 (isInternalAddedFor i) =
      if i ∈ current_port_ids ri ∧ i ∉ ri.internalPorts.map Port.id
      then 1 else 0) ∧
    (∀ i : String, countEv (process_router ri).2.1 (isInternalRemovedFor i) =
      if i ∈ ri.internalPorts.map Port.id ∧ i ∉ current_port_ids ri
      then 1 else 0) ∧
    (∀ (l1 : List Port) (p : Port) (l2 : List Port),
      ri.router.interfaces = l1 ++ p :: l2 → p.adminStateUp = false →
      (process_router { ri with
          router := { ri.router with interfaces := l1 ++ l2 } }).1.internalPorts =
        (process_router ri).1.internalPorts ∧
      (process_router { ri with
          router := { ri.router with interfaces := l1 ++ l2 } }).1.exGwPort =
        (process_router ri).1.exGwPort ∧
      (process_router { ri with
          router := { ri.router with interfaces := l1 ++ l2 } }).1.floatingIps =
        (process_router ri).1.floatingIps ∧
      (process_router { ri with
          router := { ri.router with interfaces := l1 ++ l2 } }).2 =
        (process_router ri).2) := by
  obtain ⟨gwt, fipt, hports, hevs, hgwt, hfipt, hcadd, hcrem⟩ :=
    process_router_shape ri (hE.of_map _) hfix hgw
  have hmemA : ∀ i : String,
      i ∈ ((ri.internalPorts.filter
        (fun p => decide (p.id ∈ current_port_ids ri))).map Port.id) ↔
      (i ∈ ri.internalPorts.map Port.id ∧ i ∈ current_port_ids ri) := by
    intro i
    constructor
    · intro h
      rcases List.mem_map.mp h with ⟨p, hp, rfl⟩
      exact ⟨List.mem_map.mpr ⟨p, List.mem_of_mem_filter hp, rfl⟩,
        by simpa using List.of_mem_filter hp⟩
    · rintro ⟨hEi, hCi⟩
      rcases List.mem_map.mp hEi with ⟨p, hp, rfl⟩
      exact List.mem_map.mpr ⟨p, List.mem_filter.mpr ⟨hp, by simpa using hCi⟩, rfl⟩
  have hnewids : ((new_ports ri).map Port.id).Nodup :=
    hD.sublist (List.Sublist.map _ (List.filter_sublist _))
  have holdids : ((old_ports ri).map Port.id).Nodup :=
    hE.sublist (List.Sublist.map _ (List.filter_sublist _))
  refine ⟨?_, ?_, ?_, ?_, ?_⟩
  · intro i
    rw [hports, List.map_append, List.mem_append, hmemA, mem_new_ports_ids]
    by_cases hC : i ∈ current_port_ids ri
    · by_cases hEi : i ∈ ri.internalPorts.map Port.id <;> simp [hC, hEi]
    · simp [hC]
  · rw [hports, List.map_append]
    refine List.Nodup.append
      (hE.sublist (List.Sublist.map _ (List.filter_sublist _))) hnewids ?_
    intro a haK haN
    exact ((mem_new_ports_ids ri a).mp haN).2 ((hmemA a).mp haK).1
  · intro i
    rw [hevs, countEv_append, countEv_append, countEv_append]
    have hrem0 : countEv ((old_ports ri).map (fun p =>
        Event.internalNetworkRemoved p.id (ip_cidr_of p)))
        (isInternalAddedFor i) = 0 := by
      refine countEv_eq_zero ?_
      intro e he
      rcases List.mem_map.mp he with ⟨p, _, rfl⟩
      rfl
    have hgw0 : countEv gwt (isInternalAddedFor i) = 0 :=
      countEv_eq_zero (fun e he => (gwEvent_classes (hgwt e he)).2.1 i)
    have hfip0 : countEv fipt (isInternalAddedFor i) = 0 :=
      countEv_eq_zero (fun e he => (fipEvent_classes (hfipt e he)).2.2.1 i)
    rw [countEv_added_map, hrem0, hgw0, hfip0]
    by_cases hmem : i ∈ (new_ports ri).map Port.id
    · rw [List.count_eq_one_of_mem hnewids hmem,
        if_pos ((mem_new_ports_ids ri i).mp hmem)]
    · rw [List.count_eq_zero.mpr hmem,
        if_neg (fun hc => hmem ((mem_new_ports_ids ri i).mpr hc))]
  · intro i
    rw [hevs, countEv_append, countEv_append, countEv_append]
    have hadd0 : countEv ((new_ports ri).map (fun p =>
        Event.internalNetworkAdded p.id p.networkId (ip_cidr_of p) p.macAddress))
        (isInternalRemovedFor i) = 0 := by
      refine countEv_eq_zero ?_
      intro e he
      rcases List.mem_map.mp he with ⟨p, _, rfl⟩
      rfl
    have hgw0 : countEv gwt (isInternalRemovedFor i) = 0 :=
      countEv_eq_zero (fun e he => (gwEvent_classes (hgwt e he)).2.2 i)
    have hfip0 : countEv fipt (isInternalRemovedFor i) = 0 :=
      countEv_eq_zero (fun e he => (fipEvent_classes (hfipt e he)).2.2.2 i)
    rw [countEv_removed_map, hadd0, hgw0, hfip0]
    by_cases hmem : i ∈ (old_ports ri).map Port.id
    · rw [List.count_eq_one_of_mem holdids hmem,
        if_pos ((mem_old_ports_ids ri i).mp hmem)]
    · rw [List.count_eq_zero.mpr hmem,
        if_neg (fun hc => hmem ((mem_old_ports_ids ri i).mpr hc))]
  · rintro l1 p l2 hsplit hdown
    have hC : current_port_ids { ri with
        router := { ri.router with interfaces := l1 ++ l2 } } =
        current_port_ids ri := by
      unfold current_port_ids
      dsimp only
      rw [hsplit]
      simp [List.filter_append, List.filter_cons, hdown]
    have hpid : p.id ∉ current_port_ids ri := by
      intro hmem
      rcases List.mem_map.mp hmem with ⟨q, hq, hqid⟩
      have hq1 : q ∈ ri.router.interfaces := List.mem_of_mem_filter hq
      have hqa : q.adminStateUp = true := by simpa using List.of_mem_filter hq
      have hne : q ≠ p := by
        intro h
        rw [h, hdown] at hqa
        cases hqa
      have hD' := hD
      rw [hsplit, List.map_append, List.map_cons] at hD'
      have hmid := List.nodup_middle.mp hD'
      have hnotin : p.id ∉ l1.map Port.id ++ l2.map Port.id :=
        (List.nodup_cons.mp hmid).1
      rw [hsplit] at hq1
      rcases List.mem_append.mp hq1 with h1 | h2
      · exact hnotin (List.mem_append.mpr (Or.inl
          (hqid ▸ List.mem_map_of_mem Port.id h1)))
      · rcases List.mem_cons.mp h2 with h3 | h4
        · exact hne h3
        · exact hnotin (List.mem_append.mpr (Or.inr
            (hqid ▸ List.mem_map_of_mem Port.id h4)))
    have hnew : new_ports { ri with
        router := { ri.router with interfaces := l1 ++ l2 } } = new_ports ri := by
      unfold new_ports
      dsimp only
      rw [hC, hsplit]
      simp only [List.filter_append, List.filter_cons]
      have hcond : ¬ (decide (p.id ∈ current_port_ids ri ∧
          p.id ∉ ri.internalPorts.map Port.id) = true) := by
        simp only [decide_eq_true_eq]
        exact fun hc => hpid hc.1
      rw [if_neg hcond]
    have hold : old_ports { ri with
        router := { ri.router with interfaces := l1 ++ l2 } } = old_ports ri := by
      unfold old_ports
      dsimp only
      rw [hC]
    exact process_router_congr ri
      { ri with router := { ri.router with interfaces := l1 ++ l2 } }
      rfl rfl rfl rfl rfl hnew hold

theorem listRemove_sublist {α : Type} [DecidableEq α] :
    ∀ (l : List α) (a : α), (listRemove l a).Sublist l := by
  intro l a
  induction l with
  | nil => exact List.Sublist.refl _
  | cons x xs ih =>
    by_cases hx : x = a
    · simp only [listRemove, hx, if_pos rfl]
      exact List.sublist_cons_self a xs
    · simp only [listRemove, hx, if_false]
      exact List.Sublist.cons₂ x ih

theorem mem_listRemove_of_ne {α : Type} [DecidableEq α] {l : List α}
    {a b : α} (ha : a ∈ l) (hne : a ≠ b) : a ∈ listRemove l b := by
  induction l with
  | nil => cases ha
  | cons x xs ih =>
    by_cases hx : x = b
    · subst hx
      simp only [listRemove, if_pos rfl]
      rcases List.mem_cons.mp ha with h1 | h2
      · exact absurd h1 hne
      · exact h2
    · simp only [listRemove, hx, if_false]
      rcases List.mem_cons.mp ha with h1 | h2
      · exact h1 ▸ List.mem_cons_self _ _
      · exact List.mem_cons_of_mem _ (ih h2)

theorem listRemove_middle {α : Type} [DecidableEq α] {pre : List α} {a : α}
    (h : a ∉ pre) (rest : List α) :
    listRemove (pre ++ a :: rest) a = pre ++ rest := by
  induction pre with
  | nil => simp [listRemove]
  | cons x xs ih =>
    have hx : x ≠ a := fun hh => h (hh ▸ List.mem_cons_self x xs)
    simp only [List.cons_append, listRemove, hx, if_false]
    exact congrArg (x :: ·) (ih (fun hh => h (List.mem_cons_of_mem x hh)))

theorem id_not_mem_listRemove {l : List Fip} {a : Fip}
    (hnd : (l.map Fip.id).Nodup) (ha : a ∈ l) :
    a.id ∉ (listRemove l a).map Fip.id := by
  induction l with
  | nil => cases ha
  | cons x xs ih =>
    have hhead : x.id ∉ xs.map Fip.id :=
      (List.nodup_cons.mp (by simpa using hnd)).1
    have htail : (xs.map Fip.id).Nodup :=
      (List.nodup_cons.mp (by simpa using hnd)).2
    by_cases hx : x = a
    · subst hx
      simp only [listRemove, if_pos rfl]
      exact hhead
    · have ha' : a ∈ xs := by
        rcases List.mem_cons.mp ha with h1 | h2
        · exact absurd h1.symm hx
        · exact h2
      simp only [listRemove, hx, if_false, List.map_cons, List.mem_cons]
      rintro (h1 | h2)
      · exact hhead (h1 ▸ List.mem_map_of_mem Fip.id ha')
      · exact ih htail ha' h2

/-- Every pair of the `id_to_fip_map` has the floating IP's id as its key,
so a successful lookup returns a record carrying the looked-up id. -/
theorem mapFind_pair_id :
    ∀ (m : List (String × Fip)), (∀ p ∈ m, p.2.id = p.1) →
      ∀ (k : String) (nf : Fip), mapFind m k = some nf → nf.id = k := by
  intro m hm k nf h
  unfold mapFind at h
  rcases hfind : m.find? (fun p => p.1 == k) with _ | p
  · rw [hfind] at h
    cases h
  · rw [hfind] at h
    have hp := List.find?_some hfind
    have hpm : p ∈ m := List.mem_of_find?_eq_some hfind
    cases h
    rw [hm p hpm]
    simpa using hp

theorem foldl_mapInsert_ids (l : List Fip) :
    ∀ (m : List (String × Fip)), (∀ p ∈ m, p.2.id = p.1) →
      ∀ p ∈ l.foldl (fun acc f => mapInsert acc f.id f) m, p.2.id = p.1 := by
  induction l with
  | nil => intro m hm; exact hm
  | cons f rest ih =>
    intro m hm
    rw [List.foldl_cons]
    refine ih _ ?_
    intro p hp
    rcases List.mem_cons.mp (by simpa [mapInsert] using hp) with h1 | h2
    · rw [h1]
    · exact hm p h2

/-- A run of untouched floating IPs (not due for removal, found in the map
with no fixed-address change) advances the scan index without changing the
list or the events. -/
theorem fip_scan_loop_noop_window (gw : Option Port) (tr : List String)
    (m : List (String × Fip)) :
    ∀ (k i : Nat) (cur : List Fip) (evs : List Event),
      (∀ (j : Nat) (hj : j < cur.length), i ≤ j → j < i + k →
        (cur.get ⟨j, hj⟩).id ∉ tr ∧
        ∃ nf, mapFind m (cur.get ⟨j, hj⟩).id = some nf ∧
          ¬(nf.fixedIpAddress ≠ "" ∧ (cur.get ⟨j, hj⟩).fixedIpAddress ≠ "" ∧
            nf.fixedIpAddress ≠ (cur.get ⟨j, hj⟩).fixedIpAddress)) →
      fip_scan_loop gw tr m i cur evs = fip_scan_loop gw tr m (i + k) cur evs := by
  intro k
  induction k with
  | zero => intro i cur evs _; rfl
  | succ k ih =>
    intro i cur evs h
    by_cases hi : i < cur.length
    · obtain ⟨h1, nf, h2, h3⟩ := h i hi (le_refl i) (by omega)
      rw [fip_scan_loop_noop_step gw tr m i cur evs hi h1 nf h2 h3]
      have hrec := ih (i + 1) cur evs
        (fun j hj hij hjk => h j hj (by omega) (by omega))
      rw [hrec]
      have : i + 1 + k = i + (k + 1) := by omega
      rw [this]
    · rw [fip_scan_loop_stop gw tr m i cur evs hi,
        fip_scan_loop_stop gw tr m (i + (k + 1)) cur evs (by omega)]

/-- Once a floating IP record `nF` is the unique carrier of its id in the
list, the scan loop keeps it there: no later iteration removes, replaces
or duplicates it (its id is not due for removal and the map maps its id to
itself). -/
theorem fip_scan_loop_unique (gw : Option Port) (tr : List String)
    (m : List (String × Fip)) (nF : Fip)
    (hntr : nF.id ∉ tr) (hm : mapFind m nF.id = some nF)
    (hmid : ∀ (k : String) (nf : Fip), mapFind m k = some nf → nf.id = k) :
    ∀ (i : Nat) (cur : List Fip) (evs : List Event),
      (cur.map Fip.id).Nodup → nF ∈ cur →
      (∀ x ∈ cur, x.id = nF.id → x = nF) →
      (((fip_scan_loop gw tr m i cur evs).1.map Fip.id).Nodup ∧
        nF ∈ (fip_scan_loop gw tr m i cur evs).1 ∧
        ∀ x ∈ (fip_scan_loop gw tr m i cur evs).1, x.id = nF.id → x = nF) := by
  intro i cur evs
  refine fip_scan_loop.induct gw tr m
    (motive := fun i cur evs =>
      (cur.map Fip.id).Nodup → nF ∈ cur →
      (∀ x ∈ cur, x.id = nF.id → x = nF) →
      (((fip_scan_loop gw tr m i cur evs).1.map Fip.id).Nodup ∧
        nF ∈ (fip_scan_loop gw tr m i cur evs).1 ∧
        ∀ x ∈ (fip_scan_loop gw tr m i cur evs).1, x.id = nF.id → x = nF))
    ?_ ?_ ?_ ?_ ?_ ?_ ?_ i cur evs
  · -- removal with a None gateway: the list is mutated, then the handler raises
    intro i cur evs h fip hmem hg hnd hin huniq
    subst hg
    have hstep : fip_scan_loop none tr m i cur evs =
        (listRemove cur (cur.get ⟨i, h⟩), evs, some .noneTypeError) := by
      rw [fip_scan_loop]
      have hmem' : cur[i].id ∈ tr := by simpa using hmem
      simp [h, hmem']
    rw [hstep]
    have hne : nF ≠ cur.get ⟨i, h⟩ := by
      intro hEq
      exact hntr (by rw [hEq]; exact hmem)
    refine ⟨(List.Nodup.sublist (List.Sublist.map _ (listRemove_sublist _ _)) hnd),
      mem_listRemove_of_ne hin hne, ?_⟩
    intro x hx
    exact huniq x ((listRemove_sublist cur _).mem hx)
  · -- removal step
    intro i cur evs h fip hmem g hg ih hnd hin huniq
    subst hg
    rw [fip_scan_loop_remove_step g tr m i cur evs h hmem]
    have hne : nF ≠ cur.get ⟨i, h⟩ := by
      intro hEq
      exact hntr (by rw [hEq]; exact hmem)
    exact ih (List.Nodup.sublist (List.Sublist.map _ (listRemove_sublist _ _)) hnd)
      (mem_listRemove_of_ne hin hne)
      (fun x hx => huniq x ((listRemove_sublist cur _).mem hx))
  · -- KeyError: list unchanged
    intro i cur evs h fip hni hfind hnd hin huniq
    rw [fip_scan_loop_keyerror_step gw tr m i cur evs h hni hfind]
    exact ⟨hnd, hin, huniq⟩
  · -- remap with a None gateway: raises before mutating
    intro i cur evs h fip hni nf hnf hcond hg hnd hin huniq
    subst hg
    have hstep : fip_scan_loop none tr m i cur evs =
        (cur, evs, some .noneTypeError) := by
      rw [fip_scan_loop]
      have hni' : cur[i].id ∉ tr := by simpa using hni
      have hnf' : mapFind m cur[i].id = some nf := by simpa using hnf
      have hcond' : nf.fixedIpAddress ≠ "" ∧ cur[i].fixedIpAddress ≠ "" ∧
          nf.fixedIpAddress ≠ cur[i].fixedIpAddress := by simpa using hcond
      simp [h, hni', hnf', hcond']
    rw [hstep]
    exact ⟨hnd, hin, huniq⟩
  · -- remap step
    intro i cur evs h fip hni nf hnf hcond g hg ih hnd hin huniq
    subst hg
    have hfi : cur.get ⟨i, h⟩ ∈ cur := List.get_mem cur i h
    have hne : (cur.get ⟨i, h⟩).id ≠ nF.id := by
      intro hEq
      have hfixnF : cur.get ⟨i, h⟩ = nF := huniq _ hfi hEq
      have hnf' : mapFind m (cur.get ⟨i, h⟩).id = some nf := hnf
      rw [hEq, hm] at hnf'
      have hnfeq : nf = nF := (Option.some_inj.mp hnf').symm
      rcases hcond with ⟨_, _, hc3⟩
      refine hc3 ?_
      rw [hnfeq]
      exact (congrArg Fip.fixedIpAddress hfixnF).symm
    rw [fip_scan_loop_remap_step g tr m i cur evs h hni nf hnf hcond]
    have hnfid : nf.id = (cur.get ⟨i, h⟩).id := hmid _ _ hnf
    have hnd' : ((listRemove cur (cur.get ⟨i, h⟩)).map Fip.id).Nodup :=
      List.Nodup.sublist (List.Sublist.map _ (listRemove_sublist _ _)) hnd
    have hnotmem : (cur.get ⟨i, h⟩).id ∉
        (listRemove cur (cur.get ⟨i, h⟩)).map Fip.id :=
      id_not_mem_listRemove hnd hfi
    refine ih ?_ ?_ ?_
    · rw [List.map_append]
      refine List.Nodup.append hnd' (by simp) ?_
      intro a ha hb
      rcases (by simpa using hb : a = nf.id) with rfl
      exact hnotmem (hnfid ▸ ha)
    · exact List.mem_append.mpr (Or.inl (mem_listRemove_of_ne hin
        (fun hEq => hne (congrArg Fip.id hEq.symm))))
    · intro x hx hxid
      rcases List.mem_append.mp hx with h1 | h2
      · exact huniq x ((listRemove_sublist cur _).mem h1) hxid
      · rcases (by simpa using h2 : x = nf) with rfl
        exact absurd (hnfid ▸ hxid) hne
  · -- untouched entry
    intro i cur evs h fip hni nf hnf hcond ih hnd hin huniq
    rw [fip_scan_loop_noop_step gw tr m i cur evs h hni nf hnf hcond]
    exact ih hnd hin huniq
  · -- index ran past the (possibly shortened) list
    intro i cur evs h hnd hin huniq
    rw [fip_scan_loop_stop gw tr m i cur evs h]
    exact ⟨hnd, hin, huniq⟩

/-- Core of the amended remap claim, at the level of
`process_router_floating_ips`: when every floating IP listed before `F` is
untouched by the pass (its descriptor entry still has an associated port
and the same fixed address) and the descriptor rebinds `F`'s id to a new
non-empty fixed address, the reconciler issues `floating_ip_removed(F, A)`
immediately followed by `floating_ip_added(F, B)`, and afterwards the
floating-IP list carries exactly the new record under `F`'s id. -/
theorem fip_remap_core (pre post : List Fip) (F newF : Fip)
    (gOld g : Port) (rfips : List Fip)
    (hnodE : ((pre ++ F :: post).map Fip.id).Nodup)
    (hnodD : (rfips.map Fip.id).Nodup)
    (hF : newF ∈ rfips) (hFid : newF.id = F.id) (hFport : newF.portId ≠ "")
    (hA : F.fixedIpAddress ≠ "") (hB : newF.fixedIpAddress ≠ "")
    (hAB : newF.fixedIpAddress ≠ F.fixedIpAddress)
    (hpre : ∀ f ∈ pre, ∃ nf ∈ rfips, nf.id = f.id ∧ nf.portId ≠ "" ∧
      nf.fixedIpAddress = f.fixedIpAddress) :
    (∃ l1 l2 : List Event,
      (process_router_floating_ips (pre ++ F :: post) (some gOld) rfips
        (some g)).2.1 =
      l1 ++ [.floatingIpRemoved F.floatingIpAddress F.fixedIpAddress,
             .floatingIpAdded F.floatingIpAddress newF.fixedIpAddress] ++ l2) ∧
    newF ∈ (process_router_floating_ips (pre ++ F :: post) (some gOld) rfips
      (some g)).1 ∧
    (∀ x ∈ (process_router_floating_ips (pre ++ F :: post) (some gOld) rfips
      (some g)).1, x.id = F.id → x = newF) := by
  have hnodE2 : (pre.map Fip.id ++ F.id :: post.map Fip.id).Nodup := by
    simpa using hnodE
  have hmid2 := List.nodup_middle.mp hnodE2
  have hFnotprepost : F.id ∉ pre.map Fip.id ++ post.map Fip.id :=
    (List.nodup_cons.mp hmid2).1
  have hFnotpre : F ∉ pre := by
    intro hmem
    exact hFnotprepost (List.mem_append.mpr (Or.inl
      (List.mem_map_of_mem Fip.id hmem)))
  unfold process_router_floating_ips
  dsimp only
  rw [fip_add_loop_some]
  dsimp only
  set existing := (pre ++ F :: post).map Fip.id with hex
  set A := rfips.filter (fun f => decide (f.portId ≠ "" ∧ f.id ∉ existing))
    with hAdef
  set filtered := rfips.filter (fun f => decide (f.portId ≠ "")) with hfdef
  set m := filtered.foldl (fun acc f => mapInsert acc f.id f)
    ([] : List (String × Fip)) with hmdef
  set evs0 := A.map (fun f =>
    Event.floatingIpAdded f.floatingIpAddress f.fixedIpAddress) with hevs0
  set tr := existing.filter (fun x => decide (x ∉ rfips.map Fip.id)) with htr
  have hFinD : F.id ∈ rfips.map Fip.id := hFid ▸ List.mem_map_of_mem Fip.id hF
  have hFtr : F.id ∉ tr := by
    intro hmem
    have := List.of_mem_filter hmem
    simp only [decide_eq_true_eq] at this
    exact this hFinD
  have hnodF : (filtered.map Fip.id).Nodup :=
    hnodD.sublist (List.Sublist.map _ (List.filter_sublist _))
  have hnewFmem : newF ∈ filtered := by
    rw [hfdef]
    exact List.mem_filter.mpr ⟨hF, by simpa using hFport⟩
  have hmF : mapFind m F.id = some newF :=
    mapFind_foldl_mem F.id filtered [] newF hnodF hnewFmem hFid
  have hmid : ∀ (k : String) (nf : Fip), mapFind m k = some nf → nf.id = k :=
    mapFind_pair_id _ (foldl_mapInsert_ids filtered []
      (by intro p hp; cases hp))
  have hmpre : ∀ f ∈ pre, ∃ nf, mapFind m f.id = some nf ∧
      nf.fixedIpAddress = f.fixedIpAddress := by
    intro f hf
    obtain ⟨nf, hnfD, hid, hport, hfixeq⟩ := hpre f hf
    exact ⟨nf, mapFind_foldl_mem f.id filtered [] nf hnodF
      (by rw [hfdef]; exact List.mem_filter.mpr ⟨hnfD, by simpa using hport⟩)
      hid, hfixeq⟩
  have hpretr : ∀ f ∈ pre, f.id ∉ tr := by
    intro f hf hmem
    obtain ⟨nf, hnfD, hid, _, _⟩ := hpre f hf
    have := List.of_mem_filter hmem
    simp only [decide_eq_true_eq] at this
    exact this (hid ▸ List.mem_map_of_mem Fip.id hnfD)
  have hAids : ∀ x ∈ A, x.id ∉ existing := by
    intro x hx
    have := List.of_mem_filter hx
    simp only [decide_eq_true_eq] at this
    exact this.2
  have hFinEx : F.id ∈ existing := by
    rw [hex]
    exact List.mem_map_of_mem Fip.id (by simp)
  have hgetpre : ∀ (j : Nat) (hj : j < pre.length)
      (hj2 : j < ((pre ++ F :: post) ++ A).length),
      ((pre ++ F :: post) ++ A).get ⟨j, hj2⟩ = pre.get ⟨j, hj⟩ := by
    intro j hj hj2
    have hjlt : j < (pre ++ F :: post).length := by
      simp only [List.length_append, List.length_cons]
      omega
    rw [List.get_eq_getElem, List.get_eq_getElem]
    rw [List.getElem_append_left hjlt, List.getElem_append_left hj]
  have hwin := fip_scan_loop_noop_window (some gOld) tr m pre.length 0
    ((pre ++ F :: post) ++ A) evs0 ?_
  · simp only [List.nil_append]
    rw [hwin, Nat.zero_add]
    have hlenF : pre.length < ((pre ++ F :: post) ++ A).length := by
      simp only [List.length_append, List.length_cons]
      omega
    have hgetF : ((pre ++ F :: post) ++ A).get ⟨pre.length, hlenF⟩ = F := by
      rw [List.get_eq_getElem]
      rw [List.getElem_append_left (by simp : pre.length <
        (pre ++ F :: post).length)]
      rw [List.getElem_append_right (le_refl pre.length)]
      simp
    have h1 : (((pre ++ F :: post) ++ A).get ⟨pre.length, hlenF⟩).id ∉ tr := by
      rw [hgetF]
      exact hFtr
    have h2 : mapFind m (((pre ++ F :: post) ++ A).get
        ⟨pre.length, hlenF⟩).id = some newF := by
      rw [hgetF]
      exact hmF
    have h3 : newF.fixedIpAddress ≠ "" ∧
        (((pre ++ F :: post) ++ A).get ⟨pre.length, hlenF⟩).fixedIpAddress ≠ "" ∧
        newF.fixedIpAddress ≠
          (((pre ++ F :: post) ++ A).get ⟨pre.length, hlenF⟩).fixedIpAddress := by
      rw [hgetF]
      exact ⟨hB, hA, hAB⟩
    rw [fip_scan_loop_remap_step gOld tr m pre.length ((pre ++ F :: post) ++ A)
      evs0 hlenF h1 newF h2 h3, hgetF]
    have hshape : (pre ++ F :: post) ++ A = pre ++ F :: (post ++ A) := by
      simp
    have hrem : listRemove ((pre ++ F :: post) ++ A) F = pre ++ (post ++ A) := by
      rw [hshape]
      exact listRemove_middle hFnotpre _
    rw [hrem]
    have hcur1nod : (((pre ++ F :: post) ++ A).map Fip.id).Nodup := by
      rw [List.map_append]
      refine List.Nodup.append hnodE
        (hnodD.sublist (List.Sublist.map _ (List.filter_sublist _))) ?_
      intro a ha hb
      rcases List.mem_map.mp hb with ⟨x, hx, rfl⟩
      exact hAids x hx ha
    have hnodrem : (((pre ++ (post ++ A)) ++ [newF]).map Fip.id).Nodup := by
      rw [List.map_append]
      have hsub : List.Sublist (pre ++ (post ++ A)) (pre ++ F :: (post ++ A)) :=
        List.Sublist.append_left (List.sublist_cons_self F (post ++ A)) pre
      have hl : ((pre ++ (post ++ A)).map Fip.id).Nodup := by
        refine List.Nodup.sublist (List.Sublist.map _ hsub) ?_
        rw [← hshape]
        exact hcur1nod
      refine List.Nodup.append hl (by simp) ?_
      intro a ha hb
      rcases (by simpa using hb : a = newF.id) with rfl
      rw [List.map_append] at ha
      rcases List.mem_append.mp ha with h5 | h6
      · exact hFnotprepost (List.mem_append.mpr (Or.inl (hFid ▸ h5)))
      · rw [List.map_append] at h6
        rcases List.mem_append.mp h6 with h7 | h8
        · exact hFnotprepost (List.mem_append.mpr (Or.inr (hFid ▸ h7)))
        · rcases List.mem_map.mp h8 with ⟨x, hx, hxid⟩
          exact hAids x hx (hxid ▸ hFid ▸ hFinEx)
    have hmemnF : newF ∈ (pre ++ (post ++ A)) ++ [newF] := by
      simp
    have huniq : ∀ x ∈ (pre ++ (post ++ A)) ++ [newF],
        x.id = newF.id → x = newF := by
      intro x hx hxid
      have hxidF : x.id = F.id := by rw [hxid, hFid]
      rcases List.mem_append.mp hx with h5 | h6
      · exfalso
        rcases List.mem_append.mp h5 with h7 | h8
        · refine hFnotprepost (List.mem_append.mpr (Or.inl ?_))
          rw [← hxidF]
          exact List.mem_map_of_mem Fip.id h7
        · rcases List.mem_append.mp h8 with h9 | h10
          · refine hFnotprepost (List.mem_append.mpr (Or.inr ?_))
            rw [← hxidF]
            exact List.mem_map_of_mem Fip.id h9
          · refine hAids x h10 ?_
            rw [hxidF]
            exact hFinEx
      · simpa using h6
    have hres := fip_scan_loop_unique (some gOld) tr m newF
      (by rw [hFid]; exact hFtr) (by rw [hFid]; exact hmF) hmid
      (pre.length + 1) ((pre ++ (post ++ A)) ++ [newF])
      (evs0 ++ [.floatingIpRemoved F.floatingIpAddress F.fixedIpAddress,
                .floatingIpAdded F.floatingIpAddress newF.fixedIpAddress])
      hnodrem hmemnF huniq
    obtain ⟨t, ht, _⟩ := fip_scan_loop_evs (some gOld) tr m (pre.length + 1)
      ((pre ++ (post ++ A)) ++ [newF])
      (evs0 ++ [.floatingIpRemoved F.floatingIpAddress F.fixedIpAddress,
                .floatingIpAdded F.floatingIpAddress newF.fixedIpAddress])
    refine ⟨⟨evs0, t, ?_⟩, hres.2.1, ?_⟩
    · rw [ht]
    · intro x hx hxid
      exact hres.2.2 x hx (by rw [hxid, hFid])
  · intro j hj hij hjk
    have hjpre : j < pre.length := by omega
    rw [hgetpre j hjpre hj]
    have hfmem : pre.get ⟨j, hjpre⟩ ∈ pre := List.get_mem pre j hjpre
    obtain ⟨nf, hnf, hfixeq⟩ := hmpre _ hfmem
    refine ⟨hpretr _ hfmem, nf, hnf, ?_⟩
    rintro ⟨_, _, hc3⟩
    exact hc3 hfixeq

/-- C3 amended: if the RouterState binds floating IP `F` to fixed address
`A` and the descriptor rebinds `F`'s id to a different non-empty fixed
address `B`, then — provided every floating IP listed *before* `F` in the
RouterState's set is untouched by the same pass (its descriptor entry
still has an associated port and the same fixed address; the original
claim fails without this proviso, see the counterexample) — reconciliation
issues `floating_ip_removed(F, A)` immediately before
`floating_ip_added(F, B)`, and afterwards the RouterState's floating-IP
set maps `F`'s id to exactly the new record. -/
theorem process_router_fip_remap (ri : RouterInfo)
    (pre post : List Fip) (F newF : Fip) (g gOld : Port)
    (hsplit : ri.floatingIps = pre ++ F :: post)
    (hnodE : ((pre ++ F :: post).map Fip.id).Nodup)
    (hgOld : ri.exGwPort = some gOld)
    (hgNew : ri.router.gwPort = some g)
    (hgfix : g.fixedIps ≠ [])
    (hfixPorts : ∀ p ∈ new_ports ri, p.fixedIps ≠ [])
    (hnodD : (ri.router.floatingips.map Fip.id).Nodup)
    (hF : newF ∈ ri.router.floatingips)
    (hFid : newF.id = F.id) (hFport : newF.portId ≠ "")
    (hA0 : F.fixedIpAddress ≠ "") (hB0 : newF.fixedIpAddress ≠ "")
    (hAB : newF.fixedIpAddress ≠ F.fixedIpAddress)
    (hpre : ∀ f ∈ pre, ∃ nf ∈ ri.router.floatingips, nf.id = f.id ∧
      nf.portId ≠ "" ∧ nf.fixedIpAddress = f.fixedIpAddress) :
    (∃ l1 l2 : List Event,
      (process_router ri).2.1 =
      l1 ++ [.floatingIpRemoved F.floatingIpAddress F.fixedIpAddress,
             .floatingIpAdded F.floatingIpAddress newF.fixedIpAddress] ++ l2) ∧
    newF ∈ (process_router ri).1.floatingIps ∧
    (∀ x ∈ (process_router ri).1.floatingIps, x.id = F.id → x = newF) := by
  have hgw : gwFixedOk ri.router.gwPort = true := by
    rw [hgNew]
    simp only [gwFixedOk]
    cases hfp : g.fixedIps with
    | nil => exact absurd hfp hgfix
    | cons a as => simp [hfp]
  unfold process_router
  dsimp only
  rw [port_add_loop_ok ri.router.gwPort hgw (new_ports ri) ri.internalPorts []
    hfixPorts]
  dsimp only
  rw [port_remove_loop_ok ri.router.gwPort hgw (old_ports ri) _ _]
  dsimp only
  rw [hgNew, hgOld]
  dsimp only
  rw [if_pos (by simp)]
  rw [hsplit]
  obtain ⟨⟨l1, l2, hevs⟩, hmem, huniq⟩ := fip_remap_core pre post F newF gOld g
    ri.router.floatingips hnodE hnodD hF hFid hFport hA0 hB0 hAB hpre
  rcases hF2 : process_router_floating_ips (pre ++ F :: post) (some gOld)
    ri.router.floatingips (some g) with ⟨fips, e3, err3⟩
  rw [hF2] at hevs hmem huniq
  simp only at hevs hmem huniq
  cases err3 with
  | some e =>
    dsimp only
    refine ⟨⟨([] ++ (new_ports ri).map (fun p => Event.internalNetworkAdded
        p.id p.networkId (ip_cidr_of p) p.macAddress) ++
        (old_ports ri).map (fun p =>
          Event.internalNetworkRemoved p.id (ip_cidr_of p)) ++ []) ++ l1,
      l2, ?_⟩, hmem, huniq⟩
    rw [hevs]
    simp [List.append_assoc]
  | none =>
    dsimp only
    refine ⟨⟨([] ++ (new_ports ri).map (fun p => Event.internalNetworkAdded
        p.id p.networkId (ip_cidr_of p) p.macAddress) ++
        (old_ports ri).map (fun p =>
          Event.internalNetworkRemoved p.id (ip_cidr_of p)) ++ []) ++ l1,
      l2, ?_⟩, hmem, huniq⟩
    rw [hevs]
    simp [List.append_assoc]

/-- Witness for C3's amended statement at a concrete input: `F` is the
router's only floating IP (the empty prefix trivially satisfies the
proviso); the descriptor rebinds it from 10.0.0.7 to 10.0.0.8. -/
theorem process_router_fip_remap_witness :
    (∃ l1 l2 : List Event,
      (process_router riRemapOnly).2.1 =
      l1 ++ [.floatingIpRemoved fipF.floatingIpAddress fipF.fixedIpAddress,
             .floatingIpAdded fipF.floatingIpAddress fipFB.fixedIpAddress]
        ++ l2) ∧
    fipFB ∈ (process_router riRemapOnly).1.floatingIps ∧
    (∀ x ∈ (process_router riRemapOnly).1.floatingIps,
      x.id = fipF.id → x = fipFB) :=
  process_router_fip_remap riRemapOnly [] [] fipF fipFB gwA gwA
    rfl (by decide) rfl rfl (by decide) (by decide) (by decide) (by decide)
    (by decide) (by decide) (by decide) (by decide) (by decide) (by decide)

/-- The number of gateway-level operations `process_router` issues, as a
function of the gateway transition. -/
theorem process_router_gw_total (ri : RouterInfo)
    (hE : (ri.internalPorts.map Port.id).Nodup)
    (hfix : ∀ p ∈ new_ports ri, p.fixedIps ≠ [])
    (hgw : gwFixedOk ri.router.gwPort = true) :
    countEv (process_router ri).2.1 isGwAdded =
      (if ri.router.gwPort.isSome ∧ ri.exGwPort = none then 1 else 0) ∧
    countEv (process_router ri).2.1 isGwRemoved =
      (if ri.router.gwPort = none ∧ ri.exGwPort.isSome then 1 else 0) := by
  obtain ⟨gwt, fipt, hports, hevs, hgwt, hfipt, hcadd, hcrem⟩ :=
    process_router_shape ri (hE.of_map _) hfix hgw
  have haddA : countEv ((new_ports ri).map (fun p =>
      Event.internalNetworkAdded p.id p.networkId (ip_cidr_of p) p.macAddress))
      isGwAdded = 0 := by
    refine countEv_eq_zero ?_
    intro e he
    rcases List.mem_map.mp he with ⟨q, _, rfl⟩
    rfl
  have haddR : countEv ((new_ports ri).map (fun p =>
      Event.internalNetworkAdded p.id p.networkId (ip_cidr_of p) p.macAddress))
      isGwRemoved = 0 := by
    refine countEv_eq_zero ?_
    intro e he
    rcases List.mem_map.mp he with ⟨q, _, rfl⟩
    rfl
  have hremA : countEv ((old_ports ri).map (fun p =>
      Event.internalNetworkRemoved p.id (ip_cidr_of p))) isGwAdded = 0 := by
    refine countEv_eq_zero ?_
    intro e he
    rcases List.mem_map.mp he with ⟨q, _, rfl⟩
    rfl
  have hremR : countEv ((old_ports ri).map (fun p =>
      Event.internalNetworkRemoved p.id (ip_cidr_of p))) isGwRemoved = 0 := by
    refine countEv_eq_zero ?_
    intro e he
    rcases List.mem_map.mp he with ⟨q, _, rfl⟩
    rfl
  have hfipA : countEv fipt isGwAdded = 0 :=
    countEv_eq_zero (fun e he => (fipEvent_classes (hfipt e he)).1)
  have hfipR : countEv fipt isGwRemoved = 0 :=
    countEv_eq_zero (fun e he => (fipEvent_classes (hfipt e he)).2.1)
  constructor
  · rw [hevs, countEv_append, countEv_append, countEv_append, haddA, hremA,
      hcadd, hfipA]
    split_ifs <;> rfl
  · rw [hevs, countEv_append, countEv_append, countEv_append, haddR, hremR,
      hcrem, hfipR]
    split_ifs <;> rfl

/-- C5: gateway transitions.  (i) A descriptor with a gateway port arriving
at a RouterState without one triggers exactly one external-gateway-added
and no removal; (ii) after a successful reconciliation a second
reconciliation of the stored (identical) descriptor triggers no
gateway-level operation; (iii) a RouterState with a gateway receiving a
descriptor without one triggers exactly one external-gateway-removed and
no addition; (iv) a successful reconciliation stores the descriptor's
gateway port as the new baseline. -/
theorem process_router_gateway_transitions (ri : RouterInfo) :
    ((ri.internalPorts.map Port.id).Nodup →
      (∀ p ∈ new_ports ri, p.fixedIps ≠ []) →
      gwFixedOk ri.router.gwPort = true →
      ri.router.gwPort.isSome → ri.exGwPort = none →
      countEv (process_router ri).2.1 isGwAdded = 1 ∧
      countEv (process_router ri).2.1 isGwRemoved = 0) ∧
    ((process_router ri).2.2 = none →
      countEv (process_router (process_router ri).1).2.1 isGwAdded = 0 ∧
      countEv (process_router (process_router ri).1).2.1 isGwRemoved = 0) ∧
    ((ri.internalPorts.map Port.id).Nodup →
      (∀ p ∈ new_ports ri, p.fixedIps ≠ []) →
      ri.router.gwPort = none → ri.exGwPort.isSome →
      countEv (process_router ri).2.1 isGwRemoved = 1 ∧
      countEv (process_router ri).2.1 isGwAdded = 0) ∧
    ((process_router ri).2.2 = none →
      (process_router ri).1.exGwPort = ri.router.gwPort) := by
  refine ⟨?_, ?_, ?_, (process_router_baseline ri).2⟩
  · intro hE hfix hgw hsome hnone
    have h := process_router_gw_total ri hE hfix hgw
    constructor
    · rw [h.1, if_pos ⟨hsome, hnone⟩]
    · rw [h.2, if_neg ?_]
      rintro ⟨hn, _⟩
      rw [hn] at hsome
      cases hsome
  · intro hok
    have hb := process_router_baseline ri
    refine process_router_gw_counts _ ?_
    rw [hb.2 hok, hb.1]
  · intro hE hfix hg0 hsome
    have hgw : gwFixedOk ri.router.gwPort = true := by
      rw [hg0]
      rfl
    have h := process_router_gw_total ri hE hfix hgw
    constructor
    · rw [h.2, if_pos ⟨hg0, hsome⟩]
    · rw [h.1, if_neg ?_]
      rintro ⟨hs, _⟩
      rw [hg0] at hs
      cases hs

/-- Witness for C5 at concrete inputs: a fresh gateway arrival triggers one
added-call; replaying the identical descriptor triggers none; removing the
gateway triggers one removed-call; and the baseline is updated. -/
theorem process_router_gateway_transitions_witness :
    (countEv (process_router riGwNew).2.1 isGwAdded = 1 ∧
      countEv (process_router riGwNew).2.1 isGwRemoved = 0) ∧
    (countEv (process_router (process_router riGwNew).1).2.1 isGwAdded = 0 ∧
      countEv (process_router (process_router riGwNew).1).2.1 isGwRemoved = 0) ∧
    (countEv (process_router riGwGone).2.1 isGwRemoved = 1 ∧
      countEv (process_router riGwGone).2.1 isGwAdded = 0) ∧
    (process_router riGwNew).1.exGwPort = riGwNew.router.gwPort := by
  refine ⟨(process_router_gateway_transitions riGwNew).1 (by decide) (by decide)
      (by decide) (by decide) (by decide),
    (process_router_gateway_transitions riGwNew).2.1 ?_,
    (process_router_gateway_transitions riGwGone).2.2.1 (by decide) (by decide)
      (by decide) (by decide),
    (process_router_gateway_transitions riGwNew).2.2.2 ?_⟩
  all_goals simp [process_router, port_add_loop, port_remove_loop, new_ports,
    old_ports, current_port_ids, process_router_floating_ips, fip_add_loop,
    fip_scan_loop, riGwNew, rGwOnly, gwA]

/-- Witness for C1 at a concrete input: existing port set is `{pb}`, the
descriptor's admin-up port set is `{pb, pa}`: `internal_network_added`
fires exactly once for the new port "pa", `internal_network_removed`
never fires for the kept port "pb", and the resulting id set is
`{pb, pa}`. -/
theorem process_router_port_diff_witness :
    countEv (process_router riPorts).2.1 (isInternalAddedFor "pa") = 1 ∧
    countEv (process_router riPorts).2.1 (isInternalRemovedFor "pb") = 0 ∧
    ("pa" ∈ (process_router riPorts).1.internalPorts.map Port.id ↔
      "pa" ∈ current_port_ids riPorts) := by
  have h := process_router_port_diff riPorts (by decide) (by decide)
    (by decide) (by decide)
  refine ⟨?_, ?_, h.1 "pa"⟩
  · rw [h.2.2.1 "pa"]
    decide
  · rw [h.2.2.2.1 "pb"]
    decide

/-- C10: calling `routers_updated` with an empty (falsy) descriptor list is
a complete no-op: the source returns before entering the semaphore section
(l3_agent.py:542-543), so the registry and the fullsync flag are unchanged,
no events are issued, and no collaborator (bridge check, external-network
lookup) is consulted — the result is `(a, [])` for every environment. -/
theorem routers_updated_empty_noop (conf : Conf) (env : Env) (a : Agent) :
    routers_updated conf env a [] = (a, []) := rfl

/-- C7 (failing part): with namespaces disabled and configured router id
"r1", the full-sync fetch is *not* scoped to "r1": the source calls
`get_routers(context, router_id)` (l3_agent.py:595-596) where the second
positional parameter of `get_routers` is `fullsync` (l3_agent.py:69), so
the RPC is issued with `fullsync = "r1"` and `router_ids = None`. -/
theorem sync_routers_task_unscoped_fetch :
    (_sync_routers_task
        { confW with useNamespaces := false, routerId := "r1" }
        (envW []) { router_info := [], fullsync := true }).2.2 =
      some { fullsyncArg := some "r1", routerIdsArg := none } := rfl

/-- C8: when no static `gateway_external_network_id` is configured and the
controller signals TooManyExternalNetworks, `_fetch_external_net_id`
raises the configuration-required error ("The 'gateway_external_network_id'
must be configured…"); the periodic full sync catches it, issues no
reconciliation events, and leaves the fullsync flag at true (the single
fetch attempt is not retried within the sync). -/
theorem sync_routers_task_too_many_external (conf : Conf) (env : Env)
    (a : Agent) (rs : List Router)
    (hstatic : conf.gatewayExternalNetworkId = "")
    (htoo : env.extNetFetch = .tooMany)
    (hbridge : env.bridgeExists = true)
    (hfetch : env.routersFetch = some rs)
    (hfs : a.fullsync = true) :
    _fetch_external_net_id conf env = .error .configRequired ∧
    (_process_routers conf env [] rs).2.2 = some .configRequired ∧
    (_sync_routers_task conf env a).1.fullsync = true ∧
    (_sync_routers_task conf env a).2.1 = [] := by
  have hf : _fetch_external_net_id conf env = .error .configRequired := by
    simp [_fetch_external_net_id, hstatic, htoo]
  have hp : _process_routers conf env [] rs = ([], [], some .configRequired) := by
    unfold _process_routers
    rw [if_neg (by simp [hbridge]), hf]
  have htask : _sync_routers_task conf env a =
      ({ router_info := [], fullsync := true }, [],
        some (get_routers_call
          (if ¬ conf.useNamespaces then some conf.routerId else none) none)) := by
    unfold _sync_routers_task
    rw [hfs]
    simp only [if_true]
    rw [hfetch]
    dsimp only
    rw [hp]
  exact ⟨hf, by rw [hp], by rw [htask], by rw [htask]⟩

/-- Witness for C8 at a concrete input. -/
theorem sync_routers_task_too_many_external_witness :
    _fetch_external_net_id { confW with gatewayExternalNetworkId := "" }
        { bridgeExists := true, extNetFetch := .tooMany,
          routersFetch := some [] } = .error .configRequired ∧
    (_process_routers { confW with gatewayExternalNetworkId := "" }
        { bridgeExists := true, extNetFetch := .tooMany,
          routersFetch := some [] } [] []).2.2 = some .configRequired ∧
    (_sync_routers_task { confW with gatewayExternalNetworkId := "" }
        { bridgeExists := true, extNetFetch := .tooMany,
          routersFetch := some [] }
        { router_info := [], fullsync := true }).1.fullsync = true ∧
    (_sync_routers_task { confW with gatewayExternalNetworkId := "" }
        { bridgeExists := true, extNetFetch := .tooMany,
          routersFetch := some [] }
        { router_info := [], fullsync := true }).2.1 = [] :=
  sync_routers_task_too_many_external _ _ _ [] rfl rfl rfl rfl rfl

/-- C9 counterexample: router "r1" sits in the registry; an incremental
`routers_updated` delivering it with `adminStateUp = false` skips it
(l3_agent.py:562-563) without removing its registry entry, so an
admin-down router *is* present in the registry after a sync. -/
theorem routers_updated_admin_down_stays :
    rDown.adminStateUp = false ∧ rDown.id = "r1" ∧
    regKeys (routers_updated confW (envW [rDown]) agentR1
      [rDown]).1.router_info = ["r1"] :=
  ⟨rfl, rfl, rfl⟩

/-- C2 (code bug): replaying `routers_updated` with an identical descriptor
set is not idempotent.  Router "r1" holds floating IPs G1 and G2 and the
(unchanged) descriptor binds neither, so both are due for removal.  The
first run unbinds only G1: the loop at l3_agent.py:328-330 calls
`ri.floating_ips.remove(fip)` on the list it is iterating, shifting G2
under the iterator, which skips it.  The replay with the identical
descriptor set then issues a further `floating_ip_removed` — an address
delete plus forwarding-rule removals and an apply — and changes the
registry again, contradicting both claimed properties. -/
theorem routers_updated_replay_not_idempotent :
    routers_updated confW (envW [rGwOnly]) agentTwoFips [rGwOnly] =
      ({ router_info := [("r1", { riTwoFips with floatingIps := [fipG2] })],
         fullsync := false },
       [.floatingIpRemoved "198.51.100.1" "10.0.0.11"]) ∧
    routers_updated confW (envW [rGwOnly])
        { router_info := [("r1", { riTwoFips with floatingIps := [fipG2] })],
          fullsync := false } [rGwOnly] =
      ({ router_info := [("r1", { riTwoFips with floatingIps := [] })],
         fullsync := false },
       [.floatingIpRemoved "198.51.100.2" "10.0.0.12"]) := by
  constructor
  all_goals
    simp [routers_updated, _process_routers, _fetch_external_net_id,
      routersLoop, regFind, regSet, routerInfoNew, process_router,
      port_add_loop, port_remove_loop, new_ports, old_ports,
      current_port_ids, process_router_floating_ips, fip_add_loop,
      fip_scan_loop, mapFind, mapInsert, listRemove, confW, envW,
      agentTwoFips, riTwoFips, rGwOnly, gwA, fipG1, fipG2]

/-- C4 (code bug): floating-IP removal misses entries.  With G1 and G2 both
due for removal, the loop at l3_agent.py:328-330 removes G1 from the list
it is iterating and thereby skips G2: G2 stays in the RouterState and no
unbind or rule removal is ever issued for it.  And when a descriptor entry
keeps the floating IP's id but has lost its associated port, the entry is
excluded from `id_to_fip_map` (l3_agent.py:316) while its id still counts
as current (l3_agent.py:311), so `id_to_fip_map[fip['id']]` raises
KeyError instead of removing the floating IP. -/
theorem process_router_fip_removal_skips :
    (process_router riTwoFips).1.floatingIps = [fipG2] ∧
    (process_router riTwoFips).2.1 =
      [.floatingIpRemoved "198.51.100.1" "10.0.0.11"] ∧
    (process_router riTwoFips).2.2 = none ∧
    (process_router riKeepId).2.2 = some (.keyError "fip-f") ∧
    (process_router riKeepId).1.floatingIps = [fipF] := by
  refine ⟨?_, ?_, ?_, ?_, ?_⟩
  all_goals
    simp [process_router, port_add_loop, port_remove_loop, new_ports,
      old_ports, current_port_ids, process_router_floating_ips, fip_add_loop,
      fip_scan_loop, mapFind, mapInsert, listRemove, riTwoFips, riKeepId,
      rGwOnly, gwA, fipG1, fipG2, fipF, fipFnoPort]

/-- C3 counterexample: the RouterState's floating-IP set binds F (id
"fip-f") to fixed address A = 10.0.0.7, listed after the to-be-removed G1;
the descriptor rebinds F to B = 10.0.0.8.  Reconciliation removes G1,
skips F entirely (the iterator passes over it after the in-place removal),
issues neither `floating_ip_removed(F, A)` nor `floating_ip_added(F, B)`,
and leaves F bound to A — refuting the claim as stated. -/
theorem process_router_fip_remap_counterexample :
    (process_router riPrecede).1.floatingIps = [fipF] ∧
    (process_router riPrecede).2.1 =
      [.floatingIpRemoved "198.51.100.1" "10.0.0.11"] ∧
    (process_router riPrecede).2.2 = none ∧
    fipF.fixedIpAddress = "10.0.0.7" ∧
    riPrecede.router.floatingips = [fipFB] ∧
    fipFB.id = fipF.id ∧ fipFB.fixedIpAddress = "10.0.0.8" := by
  refine ⟨?_, ?_, ?_, rfl, rfl, rfl, rfl⟩
  all_goals
    simp [process_router, port_add_loop, port_remove_loop, new_ports,
      old_ports, current_port_ids, process_router_floating_ips, fip_add_loop,
      fip_scan_loop, mapFind, mapInsert, listRemove, riPrecede, rRemap,
      rGwOnly, gwA, fipG1, fipF, fipFB]

/-- Keys of the registry after a dict write: unchanged if the key was
present, the key appended otherwise. -/
theorem regKeys_set (reg : Registry) (k : String) (v : RouterInfo) :
    regKeys (regSet reg k v) =
      if reg.any (fun p => p.1 == k) then regKeys reg
      else regKeys reg ++ [k] := by
  unfold regSet regKeys
  by_cases h : reg.any (fun p => p.1 == k) = true
  · rw [if_pos h, if_pos h, List.map_map]
    apply List.map_congr_left
    intro p _
    by_cases hpk : p.1 = k <;> simp [hpk]
  · rw [if_neg h, if_neg h, List.map_append]
    rfl

theorem mem_regKeys_set {reg : Registry} {k k' : String} {v : RouterInfo}
    (h : k' ∈ regKeys (regSet reg k v)) : k' ∈ regKeys reg ∨ k' = k := by
  rw [regKeys_set] at h
  by_cases hc : reg.any (fun p => p.1 == k) = true
  · rw [if_pos hc] at h
    exact Or.inl h
  · rw [if_neg hc] at h
    rcases List.mem_append.mp h with h1 | h2
    · exact Or.inl h1
    · exact Or.inr (by simpa using h2)

/-- Keys of the per-router loop's resulting registry: every key was
already present or belongs to an admin-up router of the batch. -/
theorem routersLoop_keys (conf : Conf) (target : String) :
    ∀ (routers : List Router) (reg : Registry) (evs : List Event)
      (k : String),
      k ∈ regKeys (routersLoop conf target reg evs routers).1 →
      k ∈ regKeys reg ∨ ∃ r ∈ routers, r.id = k ∧ r.adminStateUp = true := by
  intro routers
  induction routers with
  | nil => intro reg evs k h; exact Or.inl h
  | cons r rest ih =>
    intro reg evs k h
    have hskip : k ∈ regKeys (routersLoop conf target reg evs rest).1 →
        k ∈ regKeys reg ∨
          ∃ r' ∈ r :: rest, r'.id = k ∧ r'.adminStateUp = true := by
      intro hh
      rcases ih reg evs k hh with hL | ⟨r', hr', hx⟩
      · exact Or.inl hL
      · exact Or.inr ⟨r', List.mem_cons_of_mem r hr', hx⟩
    rw [routersLoop] at h
    by_cases h1 : ¬ r.adminStateUp
    · rw [if_pos h1] at h
      exact hskip h
    rw [if_neg h1] at h
    by_cases h2 : ¬ conf.useNamespaces ∧ r.id ≠ conf.routerId
    · rw [if_pos h2] at h
      exact hskip h
    rw [if_neg h2] at h
    by_cases h3 : r.egNetworkId = "" ∧ ¬ conf.handleInternalOnlyRouters
    · rw [if_pos h3] at h
      exact hskip h
    rw [if_neg h3] at h
    by_cases h4 : r.egNetworkId ≠ "" ∧ r.egNetworkId ≠ target
    · rw [if_pos h4] at h
      exact hskip h
    rw [if_neg h4] at h
    have hadm : r.adminStateUp = true := of_not_not h1
    have hsub : ∀ reg1 : Registry,
        k ∈ regKeys reg1 →
        (∀ k', k' ∈ regKeys reg1 → k' ∈ regKeys reg ∨ k' = r.id) →
        k ∈ regKeys reg ∨
          ∃ r' ∈ r :: rest, r'.id = k ∧ r'.adminStateUp = true := by
      intro reg1 hk hs
      rcases hs k hk with hL | hR
      · exact Or.inl hL
      · exact Or.inr ⟨r, List.mem_cons_self r rest, hR.symm, hadm⟩
    dsimp only at h
    rcases hfind : regFind reg r.id with _ | ri0
    all_goals rw [hfind] at h
    all_goals dsimp only at h
    · rcases hpr : process_router (routerInfoNew r.id r) with ⟨ri2, evs2, err2⟩
      rw [hpr] at h
      cases err2 with
      | some e =>
        dsimp only at h
        refine hsub _ h ?_
        intro k' hk'
        rcases mem_regKeys_set hk' with hA | hB
        · rcases mem_regKeys_set hA with hC | hD
          · exact Or.inl hC
          · exact Or.inr hD
        · exact Or.inr hB
      | none =>
        dsimp only at h
        rcases ih _ _ k h with hL | ⟨r', hr', hx⟩
        · refine hsub _ hL ?_
          intro k' hk'
          rcases mem_regKeys_set hk' with hA | hB
          · rcases mem_regKeys_set hA with hC | hD
            · exact Or.inl hC
            · exact Or.inr hD
          · exact Or.inr hB
        · exact Or.inr ⟨r', List.mem_cons_of_mem r hr', hx⟩
    · rcases hpr : process_router { ri0 with router := r } with ⟨ri2, evs2, err2⟩
      rw [hpr] at h
      cases err2 with
      | some e =>
        dsimp only at h
        refine hsub _ h ?_
        intro k' hk'
        rcases mem_regKeys_set hk' with hA | hB
        · exact Or.inl hA
        · exact Or.inr hB
      | none =>
        dsimp only at h
        rcases ih _ _ k h with hL | ⟨r', hr', hx⟩
        · refine hsub _ hL ?_
          intro k' hk'
          rcases mem_regKeys_set hk' with hA | hB
          · exact Or.inl hA
          · exact Or.inr hB
        · exact Or.inr ⟨r', List.mem_cons_of_mem r hr', hx⟩

theorem _process_routers_keys (conf : Conf) (env : Env) (reg : Registry)
    (routers : List Router) (k : String)
    (h : k ∈ regKeys (_process_routers conf env reg routers).1) :
    k ∈ regKeys reg ∨ ∃ r ∈ routers, r.id = k ∧ r.adminStateUp = true := by
  unfold _process_routers at h
  split_ifs at h with hb
  · exact Or.inl h
  · rcases hf : _fetch_external_net_id conf env with e | target
    all_goals rw [hf] at h
    · exact Or.inl h
    · exact routersLoop_keys conf target routers reg [] k h

/-- C9 amended: an admin-down router descriptor is never *added* by any
sync: after an incremental `routers_updated` every registry key either
pre-existed or is the id of an admin-up descriptor of the batch, and after
a periodic full sync (which resets the registry first) every key is the id
of an admin-up fetched descriptor.  A pre-existing entry for a router that
went admin-down is, however, not removed by the incremental path (see the
counterexample). -/
theorem registry_admin_up_only (conf : Conf) (env : Env) (a : Agent)
    (routers rs : List Router) (k : String)
    (hfetch : env.routersFetch = some rs) (hfs : a.fullsync = true) :
    (k ∈ regKeys (routers_updated conf env a routers).1.router_info →
      k ∈ regKeys a.router_info ∨
        ∃ r ∈ routers, r.id = k ∧ r.adminStateUp = true) ∧
    (k ∈ regKeys (_sync_routers_task conf env a).1.router_info →
      ∃ r ∈ rs, r.id = k ∧ r.adminStateUp = true) := by
  constructor
  · intro h
    unfold routers_updated at h
    split_ifs at h with hemp
    · exact Or.inl h
    · rcases hp : _process_routers conf env a.router_info routers
        with ⟨reg, evs, err⟩
      rw [hp] at h
      cases err with
      | none =>
        dsimp only at h
        exact _process_routers_keys conf env a.router_info routers k
          (by rw [hp]; exact h)
      | some e =>
        dsimp only at h
        exact _process_routers_keys conf env a.router_info routers k
          (by rw [hp]; exact h)
  · intro h
    unfold _sync_routers_task at h
    rw [hfs] at h
    simp only [if_true] at h
    rw [hfetch] at h
    dsimp only at h
    rcases hp : _process_routers conf env [] rs with ⟨reg, evs, err⟩
    rw [hp] at h
    have hk : k ∈ regKeys reg := by
      cases err with
      | none => exact h
      | some e => exact h
    rcases _process_routers_keys conf env [] rs k (by rw [hp]; exact hk)
      with hL | hR
    · cases hL
    · exact hR

/-- Witness for C9's amended statement at a concrete input. -/
theorem registry_admin_up_only_witness :
    ("r1" ∈ regKeys (routers_updated confW (envW [rGwOnly])
        { router_info := [], fullsync := true } [rGwOnly]).1.router_info →
      "r1" ∈ regKeys ([] : Registry) ∨
        ∃ r ∈ [rGwOnly], r.id = "r1" ∧ r.adminStateUp = true) ∧
    ("r1" ∈ regKeys (_sync_routers_task confW (envW [rGwOnly])
        { router_info := [], fullsync := true }).1.router_info →
      ∃ r ∈ [rGwOnly], r.id = "r1" ∧ r.adminStateUp = true) :=
  registry_admin_up_only confW (envW [rGwOnly])
    { router_info := [], fullsync := true } [rGwOnly] [rGwOnly] "r1" rfl rfl

/-- A batch whose prefix raises is processed exactly as the prefix alone:
the loop stops at the exception and never looks at the remaining routers. -/
theorem routersLoop_append_error (conf : Conf) (target : String) :
    ∀ (l1 l2 : List Router) (reg : Registry) (evs : List Event) (e : Err),
      (routersLoop conf target reg evs l1).2.2 = some e →
      routersLoop conf target reg evs (l1 ++ l2) =
        routersLoop conf target reg evs l1 := by
  intro l1
  induction l1 with
  | nil =>
    intro l2 reg evs e herr
    rw [routersLoop] at herr
    cases herr
  | cons r rest ih =>
    intro l2 reg evs e herr
    rw [routersLoop] at herr
    rw [List.cons_append, routersLoop]
    conv_rhs => rw [routersLoop]
    by_cases h1 : ¬ r.adminStateUp
    · rw [if_pos h1] at herr
      rw [if_pos h1, if_pos h1]
      exact ih l2 reg evs e herr
    rw [if_neg h1] at herr
    rw [if_neg h1, if_neg h1]
    by_cases h2 : ¬ conf.useNamespaces ∧ r.id ≠ conf.routerId
    · rw [if_pos h2] at herr
      rw [if_pos h2, if_pos h2]
      exact ih l2 reg evs e herr
    rw [if_neg h2] at herr
    rw [if_neg h2, if_neg h2]
    by_cases h3 : r.egNetworkId = "" ∧ ¬ conf.handleInternalOnlyRouters
    · rw [if_pos h3] at herr
      rw [if_pos h3, if_pos h3]
      exact ih l2 reg evs e herr
    rw [if_neg h3] at herr
    rw [if_neg h3, if_neg h3]
    by_cases h4 : r.egNetworkId ≠ "" ∧ r.egNetworkId ≠ target
    · rw [if_pos h4] at herr
      rw [if_pos h4, if_pos h4]
      exact ih l2 reg evs e herr
    rw [if_neg h4] at herr
    rw [if_neg h4, if_neg h4]
    · dsimp only at herr ⊢
      rcases hfind : regFind reg r.id with _ | ri0
      all_goals rw [hfind] at herr
      all_goals dsimp only at herr ⊢
      · rcases hpr : process_router (routerInfoNew r.id r) with ⟨ri2, evs2, err2⟩
        rw [hpr] at herr
        cases err2 with
        | some e2 => rfl
        | none =>
          dsimp only at herr ⊢
          exact ih l2 _ _ e herr
      · rcases hpr : process_router { ri0 with router := r } with ⟨ri2, evs2, err2⟩
        rw [hpr] at herr
        cases err2 with
        | some e2 => rfl
        | none =>
          dsimp only at herr ⊢
          exact ih l2 _ _ e herr

theorem _process_routers_append_error (conf : Conf) (env : Env)
    (reg : Registry) (l1 l2 : List Router) (e : Err)
    (herr : (_process_routers conf env reg l1).2.2 = some e) :
    _process_routers conf env reg (l1 ++ l2) =
      _process_routers conf env reg l1 := by
  unfold _process_routers at herr ⊢
  by_cases hb : conf.externalNetworkBridge ≠ "" ∧ ¬ env.bridgeExists
  · rw [if_pos hb] at herr
    exact absurd herr (by simp)
  · rw [if_neg hb] at herr
    rw [if_neg hb, if_neg hb]
    rcases hf : _fetch_external_net_id conf env with e' | target
    all_goals rw [hf] at herr
    all_goals dsimp only at herr ⊢
    · exact routersLoop_append_error conf target l1 l2 reg [] e herr

/-- C6: if reconciling some router of the batch raises, `routers_updated`
sets the fullsync flag, stops at that router (the suffix `l2` is never
processed), swallows the exception (it returns an ordinary result), and
keeps the registry exactly as the prefix left it — including entries and
per-router mutations already applied for routers processed earlier. -/
theorem routers_updated_batch_error (conf : Conf) (env : Env) (a : Agent)
    (l1 l2 : List Router) (e : Err)
    (hne : (l1 ++ l2).isEmpty = false)
    (herr : (_process_routers conf env a.router_info l1).2.2 = some e) :
    routers_updated conf env a (l1 ++ l2) =
      ({ router_info := (_process_routers conf env a.router_info l1).1,
         fullsync := true },
       (_process_routers conf env a.router_info l1).2.1) := by
  unfold routers_updated
  rw [if_neg (by simp [hne])]
  rw [_process_routers_append_error conf env a.router_info l1 l2 e herr]
  rcases hp : _process_routers conf env a.router_info l1 with ⟨reg, evs, err⟩
  rw [hp] at herr
  cases err with
  | none => cases herr
  | some e2 => rfl

/-- Witness for C6 at a concrete input: the batch is `[rBadPort, rGwOnly]`;
reconciling `rBadPort` raises (its port has no fixed IPs), so the scheduler
stops before `rGwOnly` and sets the fullsync flag. -/
theorem routers_updated_batch_error_witness :
    routers_updated confW (envW []) { router_info := [], fullsync := false }
        ([rBadPort] ++ [rGwOnly]) =
      ({ router_info :=
           (_process_routers confW (envW []) [] [rBadPort]).1,
         fullsync := true },
       (_process_routers confW (envW []) [] [rBadPort]).2.1) :=
  routers_updated_batch_error confW (envW [])
    { router_info := [], fullsync := false } [rBadPort] [rGwOnly]
    (.noIpOnPort "px") rfl rfl

end L3Agent
